import Mathlib

/-!
Shallow embedding of the slotted-page storage core of the `teleport`
repository (`src/paging.rs`, `src/types.rs`, `src/io.rs`).

Modelling conventions:
* A page buffer (`[u8; PAGE_SIZE]` in the source) is a total function
  `Nat → Nat`; every write performed by the source stores byte values
  below 256, and little-endian `u16` fields are read/written through
  `le2`/`readLe2`, which reproduce `u16::to_le_bytes`/`from_le_bytes`
  on values below 2^16 (values are reduced mod 2^16 by the encoding,
  exactly as storing through `o16` does in the source).
* Machine-integer arithmetic that can panic in a debug build (`usize`
  and `u16` subtraction underflow, `u16` addition overflow), slice
  indexing out of bounds, `expect`/`unwrap` on an `Err`/`None`, and
  `debug_assert!` failures are modelled by `Except.error PErr.panic`.
* `TryFrom<usize> for o16` failures (`InvalidPageOffsetError::OutOfRange`)
  are modelled by `Except.error PErr.outOfRange`.
* The process-wide globals of the source (the page cache and the
  `NEXT_PAGE_ID` counter) are passed explicitly: functions that read or
  allocate pages take the cache and the current counter value as
  arguments and return the updated ones.
* The unbounded `while`/`loop`s of the source (`new_leaf`'s overflow
  loop, `get_key_payload`'s chain walk) take an explicit fuel argument;
  callers of `newLeafLoop` pass the residual length, which dominates the
  number of iterations because each overflow page consumes at least one
  byte.  Running out of fuel is reported as `PErr.panic` and never
  happens on the executions discussed in the theorems.
-/

set_option autoImplicit false

namespace Teleport

/-- errors.rs is not present under src/. Modelled from the spec: the spec's
§7 error taxonomy and the source's uses give `InvalidPageOffsetError` a
variant for offsets/lengths that do not fit in 16 bits (`OutOfRange`,
produced by `TryFrom<usize> for o16`); every other failure in the source
is a panic (`expect`, `unwrap`, arithmetic under/overflow, slice bounds,
`debug_assert!`). -/
inductive PErr where
  | outOfRange
  | panic
deriving DecidableEq

/-- A page buffer: byte-addressed total function (source: `[u8; PAGE_SIZE]`). -/
abbrev Buf := Nat → Nat

/-- `PAGE_SIZE` (source: `const PAGE_SIZE: o16 = o16(4096)`). -/
def PAGE_SIZE : Nat := 4096

/-- `PAGE_SIZE_USIZE` (source: `PAGE_SIZE.0 as usize`). -/
def PAGE_SIZE_USIZE : Nat := PAGE_SIZE

def SIZE_NUM_OF_SLOTS : Nat := 2
def SIZE_PAGE_ID : Nat := 2
def SIZE_PAGE_TYPE : Nat := 1
def SIZE_FLAGS : Nat := 1
def SIZE_LEFT_MOST : Nat := 2
def SIZE_LEFT_SIBLING : Nat := 2
def SIZE_RIGHT_SIBLING : Nat := 2
def SIZE_PARENT_PAGE_ID : Nat := 2
def SIZE_FREE_START : Nat := 2
def SIZE_FREE_END : Nat := 2
def SIZE_OF_SLOT_TABLE_ITEM : Nat := 2
def SIZE_OFFSET : Nat := 2

/-- `TOTAL_HEADER_SIZE`, exactly as summed in the source (= 18). -/
def TOTAL_HEADER_SIZE : Nat :=
  SIZE_FLAGS + SIZE_RIGHT_SIBLING + SIZE_LEFT_SIBLING + SIZE_LEFT_MOST +
    SIZE_PARENT_PAGE_ID + SIZE_PAGE_ID + SIZE_PAGE_TYPE + SIZE_NUM_OF_SLOTS +
    SIZE_FREE_START + SIZE_FREE_END

def OFFSET_NUM_OF_SLOTS : Nat := 0
def OFFSET_PAGE_ID : Nat := OFFSET_NUM_OF_SLOTS + SIZE_NUM_OF_SLOTS
def OFFSET_PAGE_TYPE : Nat := OFFSET_PAGE_ID + SIZE_PAGE_ID
def OFFSET_FLAGS : Nat := OFFSET_PAGE_TYPE + SIZE_PAGE_TYPE
def OFFSET_LEFT_MOST : Nat := OFFSET_FLAGS + SIZE_FLAGS
def OFFSET_LEFT_SIBLING : Nat := OFFSET_LEFT_MOST + SIZE_LEFT_MOST
def OFFSET_RIGHT_SIBLING : Nat := OFFSET_LEFT_SIBLING + SIZE_LEFT_SIBLING
def OFFSET_PARENT_PAGE_ID : Nat := OFFSET_RIGHT_SIBLING + SIZE_RIGHT_SIBLING
def OFFSET_FREE_START : Nat := OFFSET_PARENT_PAGE_ID + SIZE_PARENT_PAGE_ID
def OFFSET_FREE_END : Nat := OFFSET_FREE_START + SIZE_FREE_START

def DATA_PAGE : Nat := 0
def INNER_PAGE : Nat := 1

/-- `u16::to_le_bytes` of `v` (reduced mod 2^16, as storing an `o16` does). -/
def le2 (v : Nat) : List Nat := [v % 256, v / 256 % 256]

/-- Copy a list of bytes into a buffer starting at `start`
(source: `copy_from_slice` into `buffer[start..start + l.len()]`). -/
def writeBytes (b : Buf) (start : Nat) (l : List Nat) : Buf :=
  fun i => if start ≤ i ∧ i < start + l.length then l.getD (i - start) 0 else b i

/-- Read `n` bytes starting at `off` (source: `&buf[off..off + n]`). -/
def readBytes (b : Buf) (off n : Nat) : List Nat :=
  (List.range n).map (fun i => b (off + i))

/-- `u16::from_le_bytes` of the two bytes at `off` (source: `read_le::<o16, 2>`). -/
def readLe2 (b : Buf) (off : Nat) : Nat :=
  b off + 256 * b (off + 1)

/-- `Page` (source: `pub struct Page { buffer: [u8; PAGE_SIZE_USIZE] }`). -/
structure Page where
  buffer : Buf

def Page.numOfSlots (p : Page) : Nat := readLe2 p.buffer OFFSET_NUM_OF_SLOTS
def Page.pageId (p : Page) : Nat := readLe2 p.buffer OFFSET_PAGE_ID
def Page.pageType (p : Page) : Nat := p.buffer OFFSET_PAGE_TYPE
def Page.flags (p : Page) : Nat := p.buffer OFFSET_FLAGS
def Page.leftMostPageId (p : Page) : Nat := readLe2 p.buffer OFFSET_LEFT_MOST
def Page.leftSibling (p : Page) : Nat := readLe2 p.buffer OFFSET_LEFT_SIBLING
def Page.rightSibling (p : Page) : Nat := readLe2 p.buffer OFFSET_RIGHT_SIBLING
def Page.parent (p : Page) : Nat := readLe2 p.buffer OFFSET_PARENT_PAGE_ID
def Page.freeStart (p : Page) : Nat := readLe2 p.buffer OFFSET_FREE_START
def Page.freeEnd (p : Page) : Nat := readLe2 p.buffer OFFSET_FREE_END

def Page.setNumOfSlots (p : Page) (num : Nat) : Page :=
  ⟨writeBytes p.buffer OFFSET_NUM_OF_SLOTS (le2 num)⟩
def Page.setPageId (p : Page) (num : Nat) : Page :=
  ⟨writeBytes p.buffer OFFSET_PAGE_ID (le2 num)⟩
def Page.setPageType (p : Page) (num : Nat) : Page :=
  ⟨writeBytes p.buffer OFFSET_PAGE_TYPE [num % 256]⟩
def Page.setFlags (p : Page) (num : Nat) : Page :=
  ⟨writeBytes p.buffer OFFSET_FLAGS [num % 256]⟩
def Page.setLeftMostPageId (p : Page) (num : Nat) : Page :=
  ⟨writeBytes p.buffer OFFSET_LEFT_MOST (le2 num)⟩
def Page.setLeftSibling (p : Page) (num : Nat) : Page :=
  ⟨writeBytes p.buffer OFFSET_LEFT_SIBLING (le2 num)⟩
def Page.setRightSibling (p : Page) (num : Nat) : Page :=
  ⟨writeBytes p.buffer OFFSET_RIGHT_SIBLING (le2 num)⟩
def Page.setParent (p : Page) (num : Nat) : Page :=
  ⟨writeBytes p.buffer OFFSET_PARENT_PAGE_ID (le2 num)⟩
def Page.setFreeStart (p : Page) (num : Nat) : Page :=
  ⟨writeBytes p.buffer OFFSET_FREE_START (le2 num)⟩
def Page.setFreeEnd (p : Page) (num : Nat) : Page :=
  ⟨writeBytes p.buffer OFFSET_FREE_END (le2 num)⟩

/-- `Page::new`.  The global `NEXT_PAGE_ID` is passed in as `next_page_id`;
the increment of the global is performed by the callers of `Page.new` in
this embedding (see `Page.newLeaf` / `newLeafLoop`). -/
def Page.new (page_type : Nat) (next_page_id : Nat) : Page :=
  let p : Page := ⟨fun _ => 0⟩
  let p := p.setFlags 0
  let p := p.setLeftMostPageId 0
  let p := p.setRightSibling 0
  let p := p.setLeftSibling 0
  let p := p.setParent 0
  let p := p.setNumOfSlots 0
  let p := p.setFreeStart TOTAL_HEADER_SIZE
  let p := p.setFreeEnd PAGE_SIZE
  let p := p.setPageType page_type
  p.setPageId next_page_id

/-- `Page::new_inner` (takes the current `NEXT_PAGE_ID`, like `Page.new`). -/
def Page.newInner (next_page_id : Nat) : Page :=
  Page.new INNER_PAGE next_page_id

/-- `Payload` (source: `types.rs`); `payloadType` holds the `u8` tag value
of the `PayloadType` enum (Str=1, U32=2, U16=3, I64=4, U8=5).  `Key` is an
alias for `Payload` in the source; keys are passed here the same way. -/
structure Payload where
  buffer : List Nat
  cursorPos : Nat
  payloadType : Nat

/-- `Payload::len`: `buffer.len() - cursor_pos`.  (Through the public API the
cursor never exceeds the buffer length, so the truncated subtraction agrees
with the source.) -/
def Payload.len (p : Payload) : Nat := p.buffer.length - p.cursorPos

/-- `Payload::from_str` over the byte content of the string. -/
def Payload.fromStr (bytes : List Nat) : Payload := ⟨bytes, 0, 1⟩

/-- `Page::free_size`: `free_end - free_start` as `u16` subtraction
(panics on underflow in a debug build). -/
def Page.freeSize (p : Page) : Except PErr Nat :=
  if p.freeEnd < p.freeStart then .error .panic
  else .ok (p.freeEnd - p.freeStart)

/-- `Page::add_slot`: copy the record bytes at the high end, decrement
`free_end`, and return the new `free_end` (the record's start offset). -/
def Page.addSlot (p : Page) (slot : List Nat) : Except PErr (Nat × Page) :=
  let free_end := p.freeEnd
  if free_end < slot.length then .error .panic else
  let new_free_end := free_end - slot.length
  if PAGE_SIZE < free_end then .error .panic else
  let p1 : Page := ⟨writeBytes p.buffer new_free_end slot⟩
  let p2 := p1.setFreeEnd new_free_end
  -- debug_assert!(free_start <= free_end)
  if p2.freeEnd < p2.freeStart then .error .panic else
  .ok (new_free_end, p2)

/-- `Page::add_to_slot_table`: store `new_free_end` at `free_start`,
advance `free_start` by one slot entry and bump `num_of_slots`. -/
def Page.addToSlotTable (p : Page) (new_free_end : Nat) : Except PErr Page :=
  let free_start := p.freeStart
  if PAGE_SIZE < free_start + SIZE_OF_SLOT_TABLE_ITEM then .error .panic else
  let p1 : Page := ⟨writeBytes p.buffer free_start (le2 new_free_end)⟩
  if 65536 ≤ free_start + SIZE_OF_SLOT_TABLE_ITEM then .error .panic else
  let p2 := p1.setFreeStart (free_start + SIZE_OF_SLOT_TABLE_ITEM)
  if 65536 ≤ p2.numOfSlots + 1 then .error .panic else
  let p3 := p2.setNumOfSlots (p2.numOfSlots + 1)
  -- debug_assert!(free_start <= free_end)
  if p3.freeEnd < p3.freeStart then .error .panic else
  .ok p3

/-- `Page::add_key_data`.  Returns the page together with the (partially
consumed) payload, whose advanced cursor records how many payload bytes
were copied into the page. -/
def Page.addKeyData (p : Page) (key : Payload) (payload : Payload) :
    Except PErr (Page × Payload) :=
  let key_buf := key.buffer
  let key_buf_size := key_buf.length
  let payload_size := payload.len
  let payload_type := payload.payloadType
  let key_type : Nat := 1     -- PayloadType::Str
  -- each for payload and key size plus the slot table entry (offset) hence three.
  let header_size := 3 * SIZE_OFFSET + 2 * SIZE_FLAGS
  match p.freeSize with
  | .error e => .error e
  | .ok free_space =>
  -- free_space - header_size - key_buf_size (usize, panics on underflow)
  if free_space < header_size then .error .panic else
  if free_space - header_size < key_buf_size then .error .panic else
  let available_net_free_space := free_space - header_size - key_buf_size
  let read_len := min available_net_free_space payload_size
  let read_buf := (payload.buffer.drop payload.cursorPos).take read_len
  let payload' : Payload := ⟨payload.buffer, payload.cursorPos + read_len, payload.payloadType⟩
  -- Vec::with_capacity(Self::slot_size(..).try_into()?); slot_size .expect(..)
  if 65536 ≤ 2 * SIZE_OFFSET + 2 * SIZE_FLAGS + key_buf_size + payload_size then .error .panic else
  if 65536 ≤ payload_size then .error .outOfRange else
  if 65536 ≤ key_buf_size then .error .outOfRange else
  let slot := le2 payload_size ++ [payload_type % 256] ++ le2 key_buf_size ++
    [key_type] ++ key_buf ++ read_buf
  match p.addSlot slot with
  | .error e => .error e
  | .ok (new_free_end, p1) =>
  match p1.addToSlotTable new_free_end with
  | .error e => .error e
  | .ok p2 => .ok (p2, payload')

/-- `Page::max_available_payload_size_in_overflow_page`:
`free_size() - 2 * SIZE_OF_SLOT_TABLE_ITEM` (u16 subtraction). -/
def Page.maxAvailablePayloadSizeInOverflowPage (p : Page) : Except PErr Nat :=
  match p.freeSize with
  | .error e => .error e
  | .ok fs =>
    if fs < 2 * SIZE_OF_SLOT_TABLE_ITEM then .error .panic
    else .ok (fs - 2 * SIZE_OF_SLOT_TABLE_ITEM)

/-- `Page::add_overflow_data`. -/
def Page.addOverflowData (p : Page) (payload : Payload) :
    Except PErr (Page × Payload) :=
  match p.maxAvailablePayloadSizeInOverflowPage with
  | .error e => .error e
  | .ok max_available_payload_size =>
  let copy_size := min payload.len max_available_payload_size
  let payload_in_bytes := (payload.buffer.drop payload.cursorPos).take copy_size
  let payload' : Payload := ⟨payload.buffer, payload.cursorPos + copy_size, payload.payloadType⟩
  -- copy_size.try_into().expect("Too many pages")
  if 65536 ≤ copy_size then .error .panic else
  let slot := le2 copy_size ++ payload_in_bytes
  match p.addSlot slot with
  | .error e => .error e
  | .ok (new_free_end, p1) =>
  match p1.addToSlotTable new_free_end with
  | .error e => .error e
  | .ok p2 => .ok (p2, payload')

/-- `Page::get_overflow_data`: read the slot-0 entry at `TOTAL_HEADER_SIZE`,
then the u16 length at that offset, then that many payload bytes. -/
def Page.getOverflowData (p : Page) : Except PErr (List Nat) :=
  let offset_index := TOTAL_HEADER_SIZE
  let slot_offset := readLe2 p.buffer offset_index
  if PAGE_SIZE < slot_offset + SIZE_OF_SLOT_TABLE_ITEM then .error .panic else
  let payload_len := readLe2 p.buffer slot_offset
  let payload_offset := slot_offset + SIZE_PAGE_ID
  if PAGE_SIZE < payload_offset + payload_len then .error .panic else
  .ok (readBytes p.buffer payload_offset payload_len)

/-- The process-wide page cache of `paging.rs`
(`static CACHE: Lazy<Mutex<HashMap<o16, Page>>>`), passed explicitly. -/
abbrev Cache := Nat → Option Page

def emptyCache : Cache := fun _ => none

def cacheInsert (c : Cache) (k : Nat) (p : Page) : Cache :=
  fun k' => if k' = k then some p else c k'

/-- The overflow-chain walk inside `Page::get_key_payload` (the source's
unbounded `loop`); `fuel` bounds the number of chain links followed.  A
cache miss is the source's `panic!("Page ID out of bounds")`; a failing
`get_overflow_data` is silently ignored (`if let Ok(..)`), exactly as in
the source. -/
def walkChain (cache : Cache) : Nat → Nat → List Nat → Except PErr (List Nat)
  | 0, current, payload =>
      if current = 0 then .ok payload else .error .panic
  | fuel + 1, current, payload =>
      if current = 0 then .ok payload
      else
        match cache current with
        | none => .error .panic
        | some overflow_page =>
          let payload' :=
            match overflow_page.getOverflowData with
            | .ok overflow_data => payload ++ overflow_data
            | .error _ => payload
          walkChain cache fuel overflow_page.rightSibling payload'

/-- `Page::get_key_payload`.  The source returns
`String::from_utf8_lossy(bytes)`; this embedding returns the accumulated
byte vector itself (the string conversion is the very last step and is
not needed by any claim, which all speak about payload bytes). -/
def Page.getKeyPayload (p : Page) (cache : Cache) (fuel : Nat) (index : Nat) :
    Except PErr (List Nat) :=
  let offset_index := TOTAL_HEADER_SIZE + index * 2
  if PAGE_SIZE < offset_index + SIZE_OF_SLOT_TABLE_ITEM then .error .panic else
  let slot_offset := readLe2 p.buffer offset_index
  if PAGE_SIZE < slot_offset + SIZE_OF_SLOT_TABLE_ITEM then .error .panic else
  let payload_len := readLe2 p.buffer slot_offset
  let flag_offset := slot_offset + SIZE_PAGE_ID
  if PAGE_SIZE < flag_offset + SIZE_FLAGS then .error .panic else
  let key_len_offset := flag_offset + SIZE_FLAGS
  if PAGE_SIZE < key_len_offset + SIZE_OF_SLOT_TABLE_ITEM then .error .panic else
  let key_len := readLe2 p.buffer key_len_offset
  let key_type_offset := key_len_offset + SIZE_PAGE_ID
  let key_offset := key_type_offset + SIZE_FLAGS
  -- page_size - (key_len + TOTAL_HEADER_SIZE + 3 * SIZE_PAGE_ID + 2 * SIZE_PAGE_TYPE)
  if PAGE_SIZE < key_len + (TOTAL_HEADER_SIZE + 3 * SIZE_PAGE_ID + 2 * SIZE_PAGE_TYPE) then
    .error .panic else
  let max_payload_capacity :=
    PAGE_SIZE - (key_len + TOTAL_HEADER_SIZE + 3 * SIZE_PAGE_ID + 2 * SIZE_PAGE_TYPE)
  let payload_offset := key_offset + key_len
  if PAGE_SIZE < payload_offset + min max_payload_capacity payload_len then .error .panic else
  let payload := readBytes p.buffer payload_offset (min max_payload_capacity payload_len)
  let current_right_sibling := p.rightSibling
  if current_right_sibling = 0 then .ok payload
  else walkChain cache fuel current_right_sibling payload

/-- The `while residual.len() > 0` loop of `Page::new_leaf`.  `fuel` is
supplied by `Page.newLeaf` as the residual length, which bounds the
iteration count because every fresh overflow page consumes at least one
byte. -/
def newLeafLoop : Nat → Cache → Nat → Nat → Payload → Except PErr (Cache × Nat)
  | 0, cache, counter, _, residual =>
      if residual.len > 0 then .error .panic else .ok (cache, counter)
  | fuel + 1, cache, counter, prev_page_id, residual =>
      if residual.len > 0 then
        let overflow_page := Page.new DATA_PAGE counter
        -- NEXT_PAGE_ID = o16(NEXT_PAGE_ID.0 + 1): u16 overflow panics
        if 65536 ≤ counter + 1 then .error .panic else
        let counter' := counter + 1
        let overflow_page_id := overflow_page.pageId
        match overflow_page.addOverflowData residual with
        | .error _ => .error .panic        -- .expect("")
        | .ok (overflow_page, residual') =>
          let cache := cacheInsert cache overflow_page_id overflow_page
          match cache prev_page_id with
          | none => .error .panic          -- .expect("")
          | some prev_page =>
            let cache := cacheInsert cache prev_page_id
              (prev_page.setRightSibling overflow_page_id)
            newLeafLoop fuel cache counter' overflow_page_id residual'
      else .ok (cache, counter)

/-- `Page::new_leaf`.  The globals (cache, `NEXT_PAGE_ID`) are explicit:
the function takes their current values and returns
`(cache', next_page_id', head_page_id)`. -/
def Page.newLeaf (cache : Cache) (next_page_id : Nat) (key : Payload)
    (payload : Payload) : Except PErr (Cache × Nat × Nat) :=
  let parent_page := Page.new DATA_PAGE next_page_id
  if 65536 ≤ next_page_id + 1 then .error .panic else
  let counter := next_page_id + 1
  let current_page_id := parent_page.pageId
  let cache := cacheInsert cache current_page_id parent_page
  match cache current_page_id with
  | none => .error .panic                -- .expect("")
  | some current_page =>
    match current_page.addKeyData key payload with
    | .error _ => .error .panic          -- .expect("")
    | .ok (current_page, residual) =>
      let cache := cacheInsert cache current_page_id current_page
      match newLeafLoop residual.len cache counter current_page_id residual with
      | .error e => .error e
      | .ok (cache, counter) => .ok (cache, counter, current_page_id)

/-- The spec's `read_payload(allocate_leaf(key, payload), 0)` composition:
allocate a leaf from a pristine state (empty cache, `NEXT_PAGE_ID = 0`) and
read slot 0 of the head page back through the same cache. -/
def allocateThenRead (key payload : Payload) : Except PErr (List Nat) :=
  match Page.newLeaf emptyCache 0 key payload with
  | .error e => .error e
  | .ok (cache, _, head_page_id) =>
    match cache head_page_id with
    | none => .error .panic
    | some head_page => head_page.getKeyPayload cache payload.len 0

/-- Split the residual bytes into the per-overflow-page segments that
`new_leaf`'s loop stores: each fresh overflow page takes
`min remaining 4074` bytes.  Structural in the fuel (first) argument so
that it reduces definitionally; `segs` supplies enough fuel. -/
def segsF : Nat → List Nat → List (List Nat)
  | 0, _ => []
  | fuel + 1, r =>
      if r.length = 0 then []
      else
        let m := min r.length 4074
        r.take m :: segsF fuel (r.drop m)

def segs (r : List Nat) : List (List Nat) := segsF r.length r

/-- The per-page chunk sizes of an overflow chain for a residual of `n`
bytes (length-level image of `segs`). -/
def chunksF : Nat → Nat → List Nat
  | 0, _ => []
  | fuel + 1, n =>
      if n = 0 then []
      else min n 4074 :: chunksF fuel (n - min n 4074)

def chunks (n : Nat) : List Nat := chunksF n n

/-- A terminated overflow chain in a cache: `IsChain cache id ds` holds when
following `right_sibling` links from `id` visits pages whose
`get_overflow_data` results are `ds` and ends at the null id 0. -/
inductive IsChain (cache : Cache) : Nat → List (List Nat) → Prop where
  | nil : IsChain cache 0 []
  | cons {id : Nat} {pg : Page} {d : List Nat} {rest : List (List Nat)}
      (hid : id ≠ 0) (hpg : cache id = some pg)
      (hdata : pg.getOverflowData = .ok d)
      (hrest : IsChain cache pg.rightSibling rest) :
      IsChain cache id (d :: rest)

/-- The in-memory cache of `io.rs` (`static CACHE: ... HashMap<o16, Arc<Page>>`). -/
abbrev IoCache := Nat → Option Page

def emptyIoCache : IoCache := fun _ => none

/-- `io::read_from_disk`: the source opens `index.000` with
`OpenOptions::new().write(true).create(true)` — a write-only handle, no
`.read(true)` — so the `seek` succeeds but `file.read_exact(&mut buffer)`
fails on every call whatever the file holds, and the `.unwrap()` panics.
The function therefore panics unconditionally; the `Page::new_from` /
`Some(..)` tail of the source is unreachable.  The backing file (modelled
by its byte content) and the page id are ignored, exactly as the failing
read ignores them. -/
def read_from_disk (_file : List Nat) (_page_id : Nat) : Except PErr Page :=
  .error .panic

/-- `io::read`: consult the cache (keyed by `o16(page_id as u16)`, hence the
mod 2^16), fall back to `read_from_disk` on a miss.  Returns the possibly
updated cache alongside the result, so cache (non-)insertion is observable. -/
def ioRead (cache : IoCache) (file : List Nat) (page_id : Nat) :
    Except PErr (Option Page × IoCache) :=
  match cache (page_id % 65536) with
  | some found => .ok (some found, cache)
  | none =>
    match read_from_disk file page_id with
    | .ok page => .ok (some page, cache)
    | .error e => .error e

/-- The free-space bookkeeping invariant of spec §3/§8 (with the source's
actual header size `TOTAL_HEADER_SIZE = 18`). -/
def PageInv (p : Page) : Prop :=
  TOTAL_HEADER_SIZE ≤ p.freeStart ∧ p.freeStart ≤ p.freeEnd ∧
    p.freeEnd ≤ PAGE_SIZE ∧ p.freeStart - TOTAL_HEADER_SIZE = p.numOfSlots * 2

instance (p : Page) : Decidable (PageInv p) := by
  unfold PageInv; infer_instance

/-! ## Buffer read/write lemmas -/

theorem writeBytes_lt {b : Buf} {s : Nat} {l : List Nat} {i : Nat} (h : i < s) :
    writeBytes b s l i = b i := by
  simp only [writeBytes, if_neg (by omega : ¬ (s ≤ i ∧ i < s + l.length))]

theorem writeBytes_ge {b : Buf} {s : Nat} {l : List Nat} {i : Nat}
    (h : s + l.length ≤ i) : writeBytes b s l i = b i := by
  simp only [writeBytes, if_neg (by omega : ¬ (s ≤ i ∧ i < s + l.length))]

theorem writeBytes_in {b : Buf} {s : Nat} {l : List Nat} {i : Nat}
    (h1 : s ≤ i) (h2 : i < s + l.length) :
    writeBytes b s l i = l.getD (i - s) 0 := by
  simp only [writeBytes, if_pos (And.intro h1 h2)]

theorem readLe2_writeBytes_lt {b : Buf} {s : Nat} {l : List Nat} {o : Nat}
    (h : o + 2 ≤ s) : readLe2 (writeBytes b s l) o = readLe2 b o := by
  simp only [readLe2, writeBytes_lt (by omega : o < s),
    writeBytes_lt (by omega : o + 1 < s)]

theorem readLe2_writeBytes_ge {b : Buf} {s : Nat} {l : List Nat} {o : Nat}
    (h : s + l.length ≤ o) : readLe2 (writeBytes b s l) o = readLe2 b o := by
  simp only [readLe2, writeBytes_ge (by omega : s + l.length ≤ o),
    writeBytes_ge (by omega : s + l.length ≤ o + 1)]

theorem readLe2_writeBytes_le2 {b : Buf} {s : Nat} {v : Nat} :
    readLe2 (writeBytes b s (le2 v)) s = v % 65536 := by
  have h0 : writeBytes b s (le2 v) s = v % 256 := by
    rw [writeBytes_in (Nat.le_refl s) (by simp [le2])]
    simp [le2]
  have h1 : writeBytes b s (le2 v) (s + 1) = v / 256 % 256 := by
    rw [writeBytes_in (by omega) (by simp [le2])]
    simp [le2]
  rw [readLe2, h0, h1, show (65536 : Nat) = 256 * 256 from rfl, Nat.mod_mul]

theorem readBytes_length {b : Buf} {o n : Nat} : (readBytes b o n).length = n := by
  simp [readBytes]

theorem readBytes_writeBytes_lt {b : Buf} {s : Nat} {l : List Nat} {o n : Nat}
    (h : o + n ≤ s) : readBytes (writeBytes b s l) o n = readBytes b o n := by
  simp only [readBytes]
  refine List.map_congr_left (fun i hi => ?_)
  rw [List.mem_range] at hi
  exact writeBytes_lt (by omega)

theorem readBytes_writeBytes_ge {b : Buf} {s : Nat} {l : List Nat} {o n : Nat}
    (h : s + l.length ≤ o) : readBytes (writeBytes b s l) o n = readBytes b o n := by
  simp only [readBytes]
  refine List.map_congr_left (fun i hi => ?_)
  rw [List.mem_range] at hi
  exact writeBytes_ge (by omega)

theorem readBytes_writeBytes_inside {b : Buf} {s : Nat} {l : List Nat} {o n : Nat}
    (h1 : s ≤ o) (h2 : o + n ≤ s + l.length) :
    readBytes (writeBytes b s l) o n = (l.drop (o - s)).take n := by
  have hlen : ((l.drop (o - s)).take n).length = n := by
    simp only [List.length_take, List.length_drop]
    omega
  apply List.ext_getElem
  · simp [readBytes, hlen]
  · intro i hi1 hi2
    simp only [readBytes, List.getElem_map, List.getElem_range]
    rw [writeBytes_in (by omega) (by omega)]
    rw [List.getElem_take, List.getElem_drop]
    rw [List.getD_eq_getElem _ _ (by omega)]
    congr 1
    omega

theorem readBytes_writeBytes_exact {b : Buf} {s : Nat} {l : List Nat} :
    readBytes (writeBytes b s l) s l.length = l := by
  rw [readBytes_writeBytes_inside (Nat.le_refl s) (by omega)]
  simp

theorem le2_length {v : Nat} : (le2 v).length = 2 := rfl

attribute [simp] le2_length PAGE_SIZE PAGE_SIZE_USIZE TOTAL_HEADER_SIZE
  SIZE_NUM_OF_SLOTS SIZE_PAGE_ID SIZE_PAGE_TYPE SIZE_FLAGS SIZE_LEFT_MOST
  SIZE_LEFT_SIBLING SIZE_RIGHT_SIBLING SIZE_PARENT_PAGE_ID SIZE_FREE_START
  SIZE_FREE_END SIZE_OF_SLOT_TABLE_ITEM SIZE_OFFSET
  OFFSET_NUM_OF_SLOTS OFFSET_PAGE_ID OFFSET_PAGE_TYPE OFFSET_FLAGS
  OFFSET_LEFT_MOST OFFSET_LEFT_SIBLING OFFSET_RIGHT_SIBLING
  OFFSET_PARENT_PAGE_ID OFFSET_FREE_START OFFSET_FREE_END
  Page.numOfSlots Page.pageId Page.rightSibling Page.freeStart Page.freeEnd
  Page.setNumOfSlots Page.setPageId Page.setPageType Page.setFlags
  Page.setLeftMostPageId Page.setLeftSibling Page.setRightSibling
  Page.setParent Page.setFreeStart Page.setFreeEnd
  readLe2_writeBytes_ge readLe2_writeBytes_lt readLe2_writeBytes_le2
  readBytes_writeBytes_ge readBytes_writeBytes_lt readBytes_length

/-! ## Fresh-page field lemmas -/

theorem new_freeStart (t c : Nat) : (Page.new t c).freeStart = 18 := by
  simp [Page.new]

theorem new_freeEnd (t c : Nat) : (Page.new t c).freeEnd = 4096 := by
  simp [Page.new]

theorem new_numOfSlots (t c : Nat) : (Page.new t c).numOfSlots = 0 := by
  simp [Page.new]

theorem new_rightSibling (t c : Nat) : (Page.new t c).rightSibling = 0 := by
  simp [Page.new]

theorem new_pageId (t c : Nat) : (Page.new t c).pageId = c % 65536 := by
  simp [Page.new]

theorem new_freeSize (t c : Nat) : (Page.new t c).freeSize = .ok 4078 := by
  rw [Page.freeSize, new_freeStart, new_freeEnd]
  norm_num

attribute [simp] new_freeStart new_freeEnd new_numOfSlots new_rightSibling
  new_pageId new_freeSize

/-! ## `set_right_sibling` stability lemmas -/

theorem setRS_freeStart {p : Page} {v : Nat} :
    (p.setRightSibling v).freeStart = p.freeStart := by
  simp

theorem setRS_freeEnd {p : Page} {v : Nat} :
    (p.setRightSibling v).freeEnd = p.freeEnd := by
  simp

theorem setRS_numOfSlots {p : Page} {v : Nat} :
    (p.setRightSibling v).numOfSlots = p.numOfSlots := by
  simp

theorem setRS_pageId {p : Page} {v : Nat} :
    (p.setRightSibling v).pageId = p.pageId := by
  simp

theorem setRS_rightSibling {p : Page} {v : Nat} :
    (p.setRightSibling v).rightSibling = v % 65536 := by
  simp

theorem setRS_readLe2 {p : Page} {v o : Nat} (h : 12 ≤ o) :
    readLe2 (p.setRightSibling v).buffer o = readLe2 p.buffer o := by
  simp only [Page.setRightSibling]
  exact readLe2_writeBytes_ge (by simpa using h)

theorem setRS_readBytes {p : Page} {v o n : Nat} (h : 12 ≤ o) :
    readBytes (p.setRightSibling v).buffer o n = readBytes p.buffer o n := by
  simp only [Page.setRightSibling]
  exact readBytes_writeBytes_ge (by simpa using h)

theorem getOverflowData_setRS {p : Page} {v : Nat}
    (h : 12 ≤ readLe2 p.buffer 18) :
    (p.setRightSibling v).getOverflowData = p.getOverflowData := by
  unfold Page.getOverflowData
  simp only []
  have e1 : readLe2 (p.setRightSibling v).buffer TOTAL_HEADER_SIZE =
      readLe2 p.buffer TOTAL_HEADER_SIZE :=
    setRS_readLe2 (by norm_num)
  rw [e1]
  have e2 : readLe2 (p.setRightSibling v).buffer (readLe2 p.buffer TOTAL_HEADER_SIZE) =
      readLe2 p.buffer (readLe2 p.buffer TOTAL_HEADER_SIZE) :=
    setRS_readLe2 (by simpa using h)
  rw [e2]
  have e3 : readBytes (p.setRightSibling v).buffer
      (readLe2 p.buffer TOTAL_HEADER_SIZE + SIZE_PAGE_ID)
      (readLe2 p.buffer (readLe2 p.buffer TOTAL_HEADER_SIZE)) =
      readBytes p.buffer (readLe2 p.buffer TOTAL_HEADER_SIZE + SIZE_PAGE_ID)
      (readLe2 p.buffer (readLe2 p.buffer TOTAL_HEADER_SIZE)) :=
    setRS_readBytes (by simp at h ⊢; omega)
  rw [e3]

theorem readLe2_writeBytes_at {b : Buf} {s : Nat} {l : List Nat} {d : Nat}
    (h : d + 1 < l.length) :
    readLe2 (writeBytes b s l) (s + d) = l.getD d 0 + 256 * l.getD (d + 1) 0 := by
  rw [readLe2, writeBytes_in (by omega) (by omega), writeBytes_in (by omega) (by omega)]
  rw [show s + d - s = d by omega, show s + d + 1 - s = d + 1 by omega]

theorem readBytes_writeBytes_at {b : Buf} {s : Nat} {l : List Nat} {d n : Nat}
    (h : d + n ≤ l.length) :
    readBytes (writeBytes b s l) (s + d) n = (l.drop d).take n := by
  rw [readBytes_writeBytes_inside (by omega) (by omega)]
  congr 2
  omega

/-! ## Success characterizations of `add_slot` and `add_to_slot_table` -/

theorem addSlot_eq {p : Page} {slot : List Nat}
    (h0 : 18 ≤ p.freeStart) (h2 : p.freeEnd ≤ 4096)
    (h3 : p.freeStart + slot.length ≤ p.freeEnd) :
    p.addSlot slot = .ok (p.freeEnd - slot.length,
      (⟨writeBytes p.buffer (p.freeEnd - slot.length) slot⟩ : Page).setFreeEnd
        (p.freeEnd - slot.length)) := by
  have h0' := h0; have h2' := h2; have h3' := h3
  simp at h0' h2' h3'
  have hfe : ((⟨writeBytes p.buffer (p.freeEnd - slot.length) slot⟩ : Page).setFreeEnd
      (p.freeEnd - slot.length)).freeEnd = p.freeEnd - slot.length := by
    simp
    omega
  have hfs : ((⟨writeBytes p.buffer (p.freeEnd - slot.length) slot⟩ : Page).setFreeEnd
      (p.freeEnd - slot.length)).freeStart = p.freeStart := by
    simp
    rw [readLe2_writeBytes_lt
      (by omega : 14 + 2 ≤ readLe2 p.buffer 16 - slot.length)]
  have hc1 : ¬ (p.freeEnd < slot.length) := by omega
  have hc2 : ¬ (PAGE_SIZE < p.freeEnd) := by simp; omega
  have hc3 : ¬ (((⟨writeBytes p.buffer (p.freeEnd - slot.length) slot⟩ : Page).setFreeEnd
      (p.freeEnd - slot.length)).freeEnd < ((⟨writeBytes p.buffer
      (p.freeEnd - slot.length) slot⟩ : Page).setFreeEnd
      (p.freeEnd - slot.length)).freeStart) := by
    rw [hfe, hfs]; omega
  unfold Page.addSlot
  rw [if_neg hc1, if_neg hc2, if_neg hc3]

theorem addToSlotTable_eq {p : Page} (v : Nat)
    (h0 : 18 ≤ p.freeStart) (h1 : p.freeStart + 2 ≤ 4096)
    (h2 : p.numOfSlots + 1 < 65536) (h3 : p.freeStart + 2 ≤ p.freeEnd) :
    p.addToSlotTable v = .ok
      (((⟨writeBytes p.buffer p.freeStart (le2 v)⟩ : Page).setFreeStart
        (p.freeStart + 2)).setNumOfSlots (p.numOfSlots + 1)) := by
  have h0' := h0; have h1' := h1; have h2' := h2; have h3' := h3
  simp at h0' h1' h2' h3'
  have hb1 : ((⟨writeBytes p.buffer p.freeStart (le2 v)⟩ : Page).setFreeStart
      (p.freeStart + 2)).numOfSlots = p.numOfSlots := by
    simp
    rw [readLe2_writeBytes_lt (by omega : 0 + 2 ≤ readLe2 p.buffer 14)]
  have hb2 : (((⟨writeBytes p.buffer p.freeStart (le2 v)⟩ : Page).setFreeStart
      (p.freeStart + 2)).setNumOfSlots (p.numOfSlots + 1)).freeStart =
      p.freeStart + 2 := by
    simp
    omega
  have hb3 : (((⟨writeBytes p.buffer p.freeStart (le2 v)⟩ : Page).setFreeStart
      (p.freeStart + 2)).setNumOfSlots (p.numOfSlots + 1)).freeEnd = p.freeEnd := by
    simp
    rw [readLe2_writeBytes_lt (by omega : 16 + 2 ≤ readLe2 p.buffer 14)]
  have hc1 : ¬ (PAGE_SIZE < p.freeStart + SIZE_OF_SLOT_TABLE_ITEM) := by
    simp; omega
  have hc2 : ¬ (65536 ≤ p.freeStart + SIZE_OF_SLOT_TABLE_ITEM) := by
    simp; omega
  have hc3 : ¬ (65536 ≤ p.numOfSlots + 1) := by omega
  have hc4 : ¬ ((((⟨writeBytes p.buffer p.freeStart (le2 v)⟩ : Page).setFreeStart
      (p.freeStart + 2)).setNumOfSlots (p.numOfSlots + 1)).freeEnd <
      (((⟨writeBytes p.buffer p.freeStart (le2 v)⟩ : Page).setFreeStart
      (p.freeStart + 2)).setNumOfSlots (p.numOfSlots + 1)).freeStart) := by
    rw [hb3, hb2]; omega
  unfold Page.addToSlotTable
  rw [if_neg hc1, if_neg hc2]
  simp only [SIZE_OF_SLOT_TABLE_ITEM]
  rw [hb1, if_neg hc3, if_neg hc4]

/-! ## Fresh-page reads at the raw offset level -/

theorem new_readLe2_0 (t c : Nat) : readLe2 (Page.new t c).buffer 0 = 0 := by
  simpa using new_numOfSlots t c

theorem new_readLe2_2 (t c : Nat) : readLe2 (Page.new t c).buffer 2 = c % 65536 := by
  simpa using new_pageId t c

theorem new_readLe2_10 (t c : Nat) : readLe2 (Page.new t c).buffer 10 = 0 := by
  simpa using new_rightSibling t c

theorem new_readLe2_14 (t c : Nat) : readLe2 (Page.new t c).buffer 14 = 18 := by
  simpa using new_freeStart t c

theorem new_readLe2_16 (t c : Nat) : readLe2 (Page.new t c).buffer 16 = 4096 := by
  simpa using new_freeEnd t c

attribute [simp] new_readLe2_0 new_readLe2_2 new_readLe2_10 new_readLe2_14
  new_readLe2_16

/-! ## Master lemma: `add_key_data` on a fresh data page -/

theorem addKeyData_new_spec (K B : List Nat) (kt pt c : Nat) {c0 nfe : Nat}
    (hk : K.length ≤ 4070) (hn : 6 + K.length + B.length ≤ 65535)
    (hc0 : c0 = min (4070 - K.length) B.length)
    (hnfe : nfe = 4096 - (6 + K.length + c0)) :
    ∃ p' : Page,
      (Page.new DATA_PAGE c).addKeyData ⟨K, 0, kt⟩ ⟨B, 0, pt⟩ =
        .ok (p', ⟨B, c0, pt⟩) ∧
      p'.freeStart = 20 ∧ p'.freeEnd = nfe ∧ p'.numOfSlots = 1 ∧
      p'.rightSibling = 0 ∧ p'.pageId = c % 65536 ∧
      readLe2 p'.buffer 18 = nfe ∧
      readLe2 p'.buffer nfe = B.length ∧
      readLe2 p'.buffer (nfe + 3) = K.length ∧
      readBytes p'.buffer (nfe + 6 + K.length) c0 = B.take c0 := by
  have hd1 : c0 ≤ B.length := by omega
  have hd2 : c0 ≤ 4070 - K.length := by omega
  have hd3 : 20 ≤ nfe := by omega
  have hd4 : nfe + (6 + K.length + c0) = 4096 := by omega
  set slotL : List Nat :=
    le2 B.length ++ [pt % 256] ++ le2 K.length ++ [1] ++ K ++ B.take c0 with hslot
  have hslotlen : slotL.length = 6 + K.length + c0 := by
    simp [hslot, le2]
    omega
  -- Stage 1: reduce add_key_data to the add_slot / add_to_slot_table calls.
  have hred : (Page.new DATA_PAGE c).addKeyData ⟨K, 0, kt⟩ ⟨B, 0, pt⟩ =
      (match (Page.new DATA_PAGE c).addSlot slotL with
       | .error e => .error e
       | .ok (x, p1) =>
         match p1.addToSlotTable x with
         | .error e => .error e
         | .ok p2 => Except.ok (p2, (⟨B, c0, pt⟩ : Payload))) := by
    unfold Page.addKeyData
    rw [new_freeSize]
    simp only [Payload.len, Nat.sub_zero, List.drop_zero, SIZE_OFFSET, SIZE_FLAGS]
    norm_num
    rw [if_neg (by omega : ¬ (4070 < K.length)),
      if_neg (by omega : ¬ (65536 ≤ 6 + K.length + B.length)),
      if_neg (by omega : ¬ (65536 ≤ B.length)),
      if_neg (by omega : ¬ (65536 ≤ K.length)), ← hc0]
    rfl
  -- Stage 2: run add_slot.
  have ha0 : 18 ≤ (Page.new DATA_PAGE c).freeStart := by rw [new_freeStart]
  have ha2 : (Page.new DATA_PAGE c).freeEnd ≤ 4096 := by rw [new_freeEnd]
  have ha3 : (Page.new DATA_PAGE c).freeStart + slotL.length ≤
      (Page.new DATA_PAGE c).freeEnd := by
    rw [new_freeStart, new_freeEnd, hslotlen]; omega
  have hq0 : (Page.new DATA_PAGE c).freeEnd - slotL.length = nfe := by
    rw [new_freeEnd, hslotlen]; omega
  have hstep1 := addSlot_eq ha0 ha2 ha3
  rw [hq0] at hstep1
  -- fields of the page produced by add_slot
  have hq_fs : ((⟨writeBytes (Page.new DATA_PAGE c).buffer nfe slotL⟩ : Page).setFreeEnd
      nfe).freeStart = 18 := by
    simp
    rw [readLe2_writeBytes_lt (by omega : 14 + 2 ≤ nfe)]
    exact new_readLe2_14 DATA_PAGE c
  have hq_fe : ((⟨writeBytes (Page.new DATA_PAGE c).buffer nfe slotL⟩ : Page).setFreeEnd
      nfe).freeEnd = nfe := by
    simp
    omega
  have hq_ns : ((⟨writeBytes (Page.new DATA_PAGE c).buffer nfe slotL⟩ : Page).setFreeEnd
      nfe).numOfSlots = 0 := by
    simp
    rw [readLe2_writeBytes_lt (by omega : 0 + 2 ≤ nfe)]
    exact new_readLe2_0 DATA_PAGE c
  have hq_rs : ((⟨writeBytes (Page.new DATA_PAGE c).buffer nfe slotL⟩ : Page).setFreeEnd
      nfe).rightSibling = 0 := by
    simp
    rw [readLe2_writeBytes_lt (by omega : 10 + 2 ≤ nfe)]
    exact new_readLe2_10 DATA_PAGE c
  have hq_id : ((⟨writeBytes (Page.new DATA_PAGE c).buffer nfe slotL⟩ : Page).setFreeEnd
      nfe).pageId = c % 65536 := by
    simp
    rw [readLe2_writeBytes_lt (by omega : 2 + 2 ≤ nfe)]
    exact new_readLe2_2 DATA_PAGE c
  set q : Page :=
    (⟨writeBytes (Page.new DATA_PAGE c).buffer nfe slotL⟩ : Page).setFreeEnd nfe
    with hqdef
  -- Stage 3: run add_to_slot_table.
  have hb0 : 18 ≤ q.freeStart := by rw [hq_fs]
  have hb1 : q.freeStart + 2 ≤ 4096 := by rw [hq_fs]; norm_num
  have hb2 : q.numOfSlots + 1 < 65536 := by rw [hq_ns]; norm_num
  have hb3 : q.freeStart + 2 ≤ q.freeEnd := by rw [hq_fs, hq_fe]; omega
  have hstep2 := addToSlotTable_eq nfe hb0 hb1 hb2 hb3
  rw [hq_fs, hq_ns, show (18 + 2 : Nat) = 20 from rfl,
    show (0 + 1 : Nat) = 1 from rfl] at hstep2
  -- helper reads through the final three header writes, at symbolic offsets
  have hsk1 : ∀ o, 20 ≤ o →
      readLe2 (writeBytes (writeBytes (writeBytes q.buffer 18 (le2 nfe)) 14 (le2 20)) 0
        (le2 1)) o = readLe2 q.buffer o := by
    intro o ho
    rw [readLe2_writeBytes_ge (by simp; omega), readLe2_writeBytes_ge (by simp; omega),
      readLe2_writeBytes_ge (by simp; omega)]
  have hq_buf : q.buffer =
      writeBytes (writeBytes (Page.new DATA_PAGE c).buffer nfe slotL) 16 (le2 nfe) := rfl
  refine ⟨((⟨writeBytes q.buffer 18 (le2 nfe)⟩ : Page).setFreeStart 20).setNumOfSlots 1,
    ?_, ?_, ?_, ?_, ?_, ?_, ?_, ?_, ?_, ?_⟩
  · rw [hred, hstep1]
    simp only []
    rw [hstep2]
  · simp
  · simp
    exact hq_fe
  · simp
  · -- rightSibling
    simp
    exact hq_rs
  · -- pageId
    simp
    exact hq_id
  · -- slot-table entry at 18
    simp
    omega
  · -- stored payload_len field = B.length
    show readLe2 (writeBytes (writeBytes (writeBytes q.buffer 18 (le2 nfe)) 14 (le2 20)) 0
      (le2 1)) nfe = B.length
    rw [hsk1 nfe hd3, hq_buf, readLe2_writeBytes_ge (by simp; omega)]
    have e5 : readLe2 (writeBytes (Page.new DATA_PAGE c).buffer nfe slotL) (nfe + 0) =
        slotL.getD 0 0 + 256 * slotL.getD (0 + 1) 0 :=
      readLe2_writeBytes_at (by rw [hslotlen]; omega)
    refine Eq.trans e5 ?_
    simp [hslot, le2]
    omega
  · -- stored key_len field = K.length
    show readLe2 (writeBytes (writeBytes (writeBytes q.buffer 18 (le2 nfe)) 14 (le2 20)) 0
      (le2 1)) (nfe + 3) = K.length
    rw [hsk1 (nfe + 3) (by omega), hq_buf, readLe2_writeBytes_ge (by simp; omega)]
    have e5 : readLe2 (writeBytes (Page.new DATA_PAGE c).buffer nfe slotL) (nfe + 3) =
        slotL.getD 3 0 + 256 * slotL.getD (3 + 1) 0 :=
      readLe2_writeBytes_at (by rw [hslotlen]; omega)
    refine Eq.trans e5 ?_
    simp [hslot, le2]
    omega
  · -- stored payload head bytes
    show readBytes (writeBytes (writeBytes (writeBytes q.buffer 18 (le2 nfe)) 14 (le2 20)) 0
      (le2 1)) (nfe + 6 + K.length) c0 = B.take c0
    rw [readBytes_writeBytes_ge (by simp; omega), readBytes_writeBytes_ge (by simp; omega),
      readBytes_writeBytes_ge (by simp; omega), hq_buf,
      readBytes_writeBytes_ge (by simp; omega),
      show nfe + 6 + K.length = nfe + (6 + K.length) by omega]
    have e5 : readBytes (writeBytes (Page.new DATA_PAGE c).buffer nfe slotL)
        (nfe + (6 + K.length)) c0 = (slotL.drop (6 + K.length)).take c0 :=
      readBytes_writeBytes_at (by rw [hslotlen])
    refine Eq.trans e5 ?_
    have hdrop : slotL.drop (6 + K.length) = B.take c0 := by
      rw [hslot, show (6 + K.length) = K.length + 6 by omega, ← List.drop_drop]
      simp [le2]
    rw [hdrop]
    simp [List.take_take]

/-! ## Master lemma: `add_overflow_data` on a fresh data page -/

theorem maxAvailable_new (c : Nat) :
    (Page.new DATA_PAGE c).maxAvailablePayloadSizeInOverflowPage = .ok 4074 := by
  unfold Page.maxAvailablePayloadSizeInOverflowPage
  rw [new_freeSize]
  norm_num

theorem addOverflowData_new_spec (B : List Nat) (pos pt c : Nat) {m nfe : Nat}
    (hm : m = min (B.length - pos) 4074)
    (hnfe : nfe = 4094 - m) :
    ∃ p' : Page,
      (Page.new DATA_PAGE c).addOverflowData ⟨B, pos, pt⟩ = .ok (p', ⟨B, pos + m, pt⟩) ∧
      p'.freeStart = 20 ∧ p'.freeEnd = nfe ∧ p'.numOfSlots = 1 ∧
      p'.rightSibling = 0 ∧ p'.pageId = c % 65536 ∧
      readLe2 p'.buffer 18 = nfe ∧
      p'.getOverflowData = .ok ((B.drop pos).take m) := by
  have hd1 : m ≤ 4074 := by omega
  have hd2 : m ≤ B.length - pos := by omega
  have hd3 : 20 ≤ nfe := by omega
  have hd4 : nfe + (2 + m) = 4096 := by omega
  set slotL : List Nat := le2 m ++ (B.drop pos).take m with hslot
  have htlen : ((B.drop pos).take m).length = m := by
    simp
    omega
  have hslotlen : slotL.length = 2 + m := by
    rw [hslot]
    simp [htlen]
  -- Stage 1: reduce add_overflow_data to the add_slot / add_to_slot_table calls.
  have hred : (Page.new DATA_PAGE c).addOverflowData ⟨B, pos, pt⟩ =
      (match (Page.new DATA_PAGE c).addSlot slotL with
       | .error e => .error e
       | .ok (x, p1) =>
         match p1.addToSlotTable x with
         | .error e => .error e
         | .ok p2 => Except.ok (p2, (⟨B, pos + m, pt⟩ : Payload))) := by
    unfold Page.addOverflowData
    rw [maxAvailable_new]
    simp only [Payload.len]
    rw [← hm]
    rw [if_neg (by omega : ¬ (65536 ≤ m))]
  -- Stage 2: run add_slot.
  have ha0 : 18 ≤ (Page.new DATA_PAGE c).freeStart := by rw [new_freeStart]
  have ha2 : (Page.new DATA_PAGE c).freeEnd ≤ 4096 := by rw [new_freeEnd]
  have ha3 : (Page.new DATA_PAGE c).freeStart + slotL.length ≤
      (Page.new DATA_PAGE c).freeEnd := by
    rw [new_freeStart, new_freeEnd, hslotlen]; omega
  have hq0 : (Page.new DATA_PAGE c).freeEnd - slotL.length = nfe := by
    rw [new_freeEnd, hslotlen]; omega
  have hstep1 := addSlot_eq ha0 ha2 ha3
  rw [hq0] at hstep1
  have hq_fs : ((⟨writeBytes (Page.new DATA_PAGE c).buffer nfe slotL⟩ : Page).setFreeEnd
      nfe).freeStart = 18 := by
    simp
    rw [readLe2_writeBytes_lt (by omega : 14 + 2 ≤ nfe)]
    exact new_readLe2_14 DATA_PAGE c
  have hq_fe : ((⟨writeBytes (Page.new DATA_PAGE c).buffer nfe slotL⟩ : Page).setFreeEnd
      nfe).freeEnd = nfe := by
    simp
    omega
  have hq_ns : ((⟨writeBytes (Page.new DATA_PAGE c).buffer nfe slotL⟩ : Page).setFreeEnd
      nfe).numOfSlots = 0 := by
    simp
    rw [readLe2_writeBytes_lt (by omega : 0 + 2 ≤ nfe)]
    exact new_readLe2_0 DATA_PAGE c
  have hq_rs : ((⟨writeBytes (Page.new DATA_PAGE c).buffer nfe slotL⟩ : Page).setFreeEnd
      nfe).rightSibling = 0 := by
    simp
    rw [readLe2_writeBytes_lt (by omega : 10 + 2 ≤ nfe)]
    exact new_readLe2_10 DATA_PAGE c
  have hq_id : ((⟨writeBytes (Page.new DATA_PAGE c).buffer nfe slotL⟩ : Page).setFreeEnd
      nfe).pageId = c % 65536 := by
    simp
    rw [readLe2_writeBytes_lt (by omega : 2 + 2 ≤ nfe)]
    exact new_readLe2_2 DATA_PAGE c
  set q : Page :=
    (⟨writeBytes (Page.new DATA_PAGE c).buffer nfe slotL⟩ : Page).setFreeEnd nfe
    with hqdef
  -- Stage 3: run add_to_slot_table.
  have hb0 : 18 ≤ q.freeStart := by rw [hq_fs]
  have hb1 : q.freeStart + 2 ≤ 4096 := by rw [hq_fs]; norm_num
  have hb2 : q.numOfSlots + 1 < 65536 := by rw [hq_ns]; norm_num
  have hb3 : q.freeStart + 2 ≤ q.freeEnd := by rw [hq_fs, hq_fe]; omega
  have hstep2 := addToSlotTable_eq nfe hb0 hb1 hb2 hb3
  rw [hq_fs, hq_ns, show (18 + 2 : Nat) = 20 from rfl,
    show (0 + 1 : Nat) = 1 from rfl] at hstep2
  have hsk1 : ∀ o, 20 ≤ o →
      readLe2 (writeBytes (writeBytes (writeBytes q.buffer 18 (le2 nfe)) 14 (le2 20)) 0
        (le2 1)) o = readLe2 q.buffer o := by
    intro o ho
    rw [readLe2_writeBytes_ge (by simp; omega), readLe2_writeBytes_ge (by simp; omega),
      readLe2_writeBytes_ge (by simp; omega)]
  have hq_buf : q.buffer =
      writeBytes (writeBytes (Page.new DATA_PAGE c).buffer nfe slotL) 16 (le2 nfe) := rfl
  -- the slot-table entry of the final page
  have htab : readLe2 (((⟨writeBytes q.buffer 18 (le2 nfe)⟩ : Page).setFreeStart
      20).setNumOfSlots 1).buffer 18 = nfe := by
    simp
    omega
  -- the stored length field
  have hlenfield : readLe2 (((⟨writeBytes q.buffer 18 (le2 nfe)⟩ : Page).setFreeStart
      20).setNumOfSlots 1).buffer nfe = m := by
    show readLe2 (writeBytes (writeBytes (writeBytes q.buffer 18 (le2 nfe)) 14 (le2 20)) 0
      (le2 1)) nfe = m
    rw [hsk1 nfe hd3, hq_buf, readLe2_writeBytes_ge (by simp; omega)]
    have e5 : readLe2 (writeBytes (Page.new DATA_PAGE c).buffer nfe slotL) (nfe + 0) =
        slotL.getD 0 0 + 256 * slotL.getD (0 + 1) 0 :=
      readLe2_writeBytes_at (by rw [hslotlen]; omega)
    refine Eq.trans e5 ?_
    simp [hslot, le2]
    omega
  -- the stored payload bytes
  have hbytes : readBytes (((⟨writeBytes q.buffer 18 (le2 nfe)⟩ : Page).setFreeStart
      20).setNumOfSlots 1).buffer (nfe + 2) m = (B.drop pos).take m := by
    show readBytes (writeBytes (writeBytes (writeBytes q.buffer 18 (le2 nfe)) 14 (le2 20)) 0
      (le2 1)) (nfe + 2) m = (B.drop pos).take m
    rw [readBytes_writeBytes_ge (by simp), readBytes_writeBytes_ge (by simp; omega),
      readBytes_writeBytes_ge (by simp; omega), hq_buf,
      readBytes_writeBytes_ge (by simp; omega)]
    have e5 : readBytes (writeBytes (Page.new DATA_PAGE c).buffer nfe slotL)
        (nfe + 2) m = (slotL.drop 2).take m :=
      readBytes_writeBytes_at (by rw [hslotlen])
    refine Eq.trans e5 ?_
    have hdrop : slotL.drop 2 = (B.drop pos).take m := by
      rw [hslot]
      simp [le2]
    rw [hdrop]
    simp [List.take_take]
  refine ⟨((⟨writeBytes q.buffer 18 (le2 nfe)⟩ : Page).setFreeStart 20).setNumOfSlots 1,
    ?_, ?_, ?_, ?_, ?_, ?_, ?_, ?_⟩
  · rw [hred, hstep1]
    simp only []
    rw [hstep2]
  · simp
  · simp
    exact hq_fe
  · simp
  · simp
    exact hq_rs
  · simp
    exact hq_id
  · exact htab
  · unfold Page.getOverflowData
    simp only []
    rw [show (TOTAL_HEADER_SIZE : Nat) = 18 from rfl,
      show (SIZE_PAGE_ID : Nat) = 2 from rfl, htab]
    rw [if_neg (by simp; omega), hlenfield]
    rw [if_neg (by simp; omega), hbytes]

/-! ## General-page success and failure characterizations -/

theorem freeSize_eq {p : Page} (h : p.freeStart ≤ p.freeEnd) :
    p.freeSize = .ok (p.freeEnd - p.freeStart) := by
  unfold Page.freeSize
  rw [if_neg (by omega)]

/-- `add_key_data` panics before touching the buffer when the free space
cannot even hold the record header plus the key (unchecked `usize`
subtraction underflow in a debug build). -/
theorem addKeyData_err_a {p : Page} (key payload : Payload)
    (h1 : p.freeStart ≤ p.freeEnd)
    (h : p.freeEnd - p.freeStart < 3 * SIZE_OFFSET + 2 * SIZE_FLAGS + key.buffer.length) :
    p.addKeyData key payload = .error .panic := by
  unfold Page.addKeyData
  rw [freeSize_eq h1]
  simp only []
  by_cases hc : p.freeEnd - p.freeStart < 3 * SIZE_OFFSET + 2 * SIZE_FLAGS
  · rw [if_pos hc]
  · rw [if_neg hc, if_pos (by simp only [SIZE_OFFSET, SIZE_FLAGS] at h hc ⊢; omega)]

/-- `add_key_data` panics at `slot_size(..).try_into().expect(..)` when the
key plus the total payload length does not fit in 16 bits. -/
theorem addKeyData_err_b {p : Page} (key payload : Payload)
    (h1 : p.freeStart ≤ p.freeEnd)
    (ha : 3 * SIZE_OFFSET + 2 * SIZE_FLAGS + key.buffer.length ≤ p.freeEnd - p.freeStart)
    (hb : 65536 ≤ 2 * SIZE_OFFSET + 2 * SIZE_FLAGS + key.buffer.length + payload.len) :
    p.addKeyData key payload = .error .panic := by
  unfold Page.addKeyData
  rw [freeSize_eq h1]
  simp only []
  rw [if_neg (by simp only [SIZE_OFFSET, SIZE_FLAGS] at ha ⊢; omega),
    if_neg (by simp only [SIZE_OFFSET, SIZE_FLAGS] at ha ⊢; omega),
    if_pos hb]

/-- Success characterization of `add_key_data` on an arbitrary page whose
header fields are sane. -/
theorem addKeyData_eq (key payload : Payload) {p : Page}
    (h0 : 18 ≤ p.freeStart) (h1 : p.freeStart ≤ p.freeEnd) (h2 : p.freeEnd ≤ 4096)
    (h3 : 8 + key.buffer.length ≤ p.freeEnd - p.freeStart)
    (h4 : 6 + key.buffer.length + payload.len < 65536)
    (h5 : p.numOfSlots + 1 < 65536)
    {rl nfe : Nat}
    (hrl : rl = min (p.freeEnd - p.freeStart - 8 - key.buffer.length) payload.len)
    (hnfe : nfe = p.freeEnd - (6 + key.buffer.length + rl)) :
    ∃ p' : Page,
      p.addKeyData key payload =
        .ok (p', ⟨payload.buffer, payload.cursorPos + rl, payload.payloadType⟩) ∧
      p'.freeStart = p.freeStart + 2 ∧ p'.freeEnd = nfe ∧
      p'.numOfSlots = p.numOfSlots + 1 := by
  have hrl2 : rl ≤ p.freeEnd - p.freeStart - 8 - key.buffer.length := by omega
  have hnfe2 : p.freeStart + 2 ≤ nfe := by omega
  have hnfe3 : nfe ≤ 4096 := by omega
  have h0' := h0; have h1' := h1; have h2' := h2; have h5' := h5
  simp at h0' h1' h2' h5'
  set slotL : List Nat :=
    le2 payload.len ++ [payload.payloadType % 256] ++ le2 key.buffer.length ++
      [1] ++ key.buffer ++ (payload.buffer.drop payload.cursorPos).take rl with hslot
  have htlen : ((payload.buffer.drop payload.cursorPos).take rl).length = rl := by
    simp
    simp only [Payload.len] at hrl
    omega
  have hslotlen : slotL.length = 6 + key.buffer.length + rl := by
    simp [hslot, le2, htlen]
    omega
  -- Stage 1: reduce to add_slot / add_to_slot_table.
  have hred : p.addKeyData key payload =
      (match p.addSlot slotL with
       | .error e => .error e
       | .ok (x, p1) =>
         match p1.addToSlotTable x with
         | .error e => .error e
         | .ok p2 => Except.ok (p2,
             (⟨payload.buffer, payload.cursorPos + rl, payload.payloadType⟩ : Payload))) := by
    unfold Page.addKeyData
    rw [freeSize_eq h1]
    simp only []
    rw [if_neg (by simp only [SIZE_OFFSET, SIZE_FLAGS]; omega),
      if_neg (by simp only [SIZE_OFFSET, SIZE_FLAGS]; omega),
      if_neg (by simp only [SIZE_OFFSET, SIZE_FLAGS] at h4 ⊢; omega),
      if_neg (by simp only [Payload.len] at h4 ⊢; omega),
      if_neg (by omega)]
    rw [show min (p.freeEnd - p.freeStart - (3 * SIZE_OFFSET + 2 * SIZE_FLAGS) -
      key.buffer.length) payload.len = rl by
        simp only [SIZE_OFFSET, SIZE_FLAGS]; omega]
  -- Stage 2: add_slot.
  have ha3 : p.freeStart + slotL.length ≤ p.freeEnd := by
    rw [hslotlen]
    simp only [Payload.len] at hrl
    omega
  have hq0 : p.freeEnd - slotL.length = nfe := by
    rw [hslotlen]; omega
  have hstep1 := addSlot_eq h0 h2 ha3
  rw [hq0] at hstep1
  have hq_fs : ((⟨writeBytes p.buffer nfe slotL⟩ : Page).setFreeEnd nfe).freeStart =
      p.freeStart := by
    simp
    rw [readLe2_writeBytes_lt (by omega : 14 + 2 ≤ nfe)]
  have hq_fe : ((⟨writeBytes p.buffer nfe slotL⟩ : Page).setFreeEnd nfe).freeEnd =
      nfe := by
    simp
    omega
  have hq_ns : ((⟨writeBytes p.buffer nfe slotL⟩ : Page).setFreeEnd nfe).numOfSlots =
      p.numOfSlots := by
    simp
    rw [readLe2_writeBytes_lt (by omega : 0 + 2 ≤ nfe)]
  set q : Page := (⟨writeBytes p.buffer nfe slotL⟩ : Page).setFreeEnd nfe with hqdef
  -- Stage 3: add_to_slot_table.
  have hb0 : 18 ≤ q.freeStart := by rw [hq_fs]; omega
  have hb1 : q.freeStart + 2 ≤ 4096 := by rw [hq_fs]; omega
  have hb2 : q.numOfSlots + 1 < 65536 := by rw [hq_ns]; omega
  have hb3 : q.freeStart + 2 ≤ q.freeEnd := by rw [hq_fs, hq_fe]; omega
  have hstep2 := addToSlotTable_eq nfe hb0 hb1 hb2 hb3
  rw [hq_fs, hq_ns] at hstep2
  refine ⟨((⟨writeBytes q.buffer p.freeStart (le2 nfe)⟩ : Page).setFreeStart
    (p.freeStart + 2)).setNumOfSlots (p.numOfSlots + 1), ?_, ?_, ?_, ?_⟩
  · rw [hred, hstep1]
    simp only []
    rw [hstep2]
  · simp
    omega
  · simp
    rw [readLe2_writeBytes_lt (by omega : 16 + 2 ≤ readLe2 p.buffer 14)]
    exact hq_fe
  · simp
    omega

/-- `add_overflow_data` panics when the free size is smaller than two slot
entries (`u16` subtraction underflow in `max_available_payload_size..`). -/
theorem addOverflowData_err {p : Page} (payload : Payload)
    (h1 : p.freeStart ≤ p.freeEnd)
    (h : p.freeEnd - p.freeStart < 2 * SIZE_OF_SLOT_TABLE_ITEM) :
    p.addOverflowData payload = .error .panic := by
  unfold Page.addOverflowData Page.maxAvailablePayloadSizeInOverflowPage
  rw [freeSize_eq h1]
  simp only []
  rw [if_pos h]

/-- Success characterization of `add_overflow_data` on an arbitrary page
whose header fields are sane. -/
theorem addOverflowData_eq (payload : Payload) {p : Page}
    (h0 : 18 ≤ p.freeStart) (h1 : p.freeStart ≤ p.freeEnd) (h2 : p.freeEnd ≤ 4096)
    (h3 : 4 ≤ p.freeEnd - p.freeStart)
    (h5 : p.numOfSlots + 1 < 65536)
    {m nfe : Nat}
    (hm : m = min payload.len (p.freeEnd - p.freeStart - 4))
    (hnfe : nfe = p.freeEnd - (2 + m)) :
    ∃ p' : Page,
      p.addOverflowData payload =
        .ok (p', ⟨payload.buffer, payload.cursorPos + m, payload.payloadType⟩) ∧
      p'.freeStart = p.freeStart + 2 ∧ p'.freeEnd = nfe ∧
      p'.numOfSlots = p.numOfSlots + 1 := by
  have hm2 : m ≤ p.freeEnd - p.freeStart - 4 := by omega
  have hnfe2 : p.freeStart + 2 ≤ nfe := by omega
  have hnfe3 : nfe ≤ 4096 := by omega
  have h0' := h0; have h1' := h1; have h2' := h2; have h5' := h5
  simp at h0' h1' h2' h5'
  set slotL : List Nat :=
    le2 m ++ (payload.buffer.drop payload.cursorPos).take m with hslot
  have htlen : ((payload.buffer.drop payload.cursorPos).take m).length = m := by
    simp
    simp only [Payload.len] at hm
    omega
  have hslotlen : slotL.length = 2 + m := by
    rw [hslot]
    simp [htlen]
  have hred : p.addOverflowData payload =
      (match p.addSlot slotL with
       | .error e => .error e
       | .ok (x, p1) =>
         match p1.addToSlotTable x with
         | .error e => .error e
         | .ok p2 => Except.ok (p2,
             (⟨payload.buffer, payload.cursorPos + m, payload.payloadType⟩ : Payload))) := by
    unfold Page.addOverflowData Page.maxAvailablePayloadSizeInOverflowPage
    rw [freeSize_eq h1]
    simp only []
    rw [if_neg (by simp only [SIZE_OF_SLOT_TABLE_ITEM]; omega)]
    simp only [SIZE_OF_SLOT_TABLE_ITEM]
    rw [show (2 * 2 : Nat) = 4 from rfl, ← hm]
    rw [if_neg (by omega : ¬ (65536 ≤ m))]
  have ha3 : p.freeStart + slotL.length ≤ p.freeEnd := by
    rw [hslotlen]; omega
  have hq0 : p.freeEnd - slotL.length = nfe := by
    rw [hslotlen]; omega
  have hstep1 := addSlot_eq h0 h2 ha3
  rw [hq0] at hstep1
  have hq_fs : ((⟨writeBytes p.buffer nfe slotL⟩ : Page).setFreeEnd nfe).freeStart =
      p.freeStart := by
    simp
    rw [readLe2_writeBytes_lt (by omega : 14 + 2 ≤ nfe)]
  have hq_fe : ((⟨writeBytes p.buffer nfe slotL⟩ : Page).setFreeEnd nfe).freeEnd =
      nfe := by
    simp
    omega
  have hq_ns : ((⟨writeBytes p.buffer nfe slotL⟩ : Page).setFreeEnd nfe).numOfSlots =
      p.numOfSlots := by
    simp
    rw [readLe2_writeBytes_lt (by omega : 0 + 2 ≤ nfe)]
  set q : Page := (⟨writeBytes p.buffer nfe slotL⟩ : Page).setFreeEnd nfe with hqdef
  have hb0 : 18 ≤ q.freeStart := by rw [hq_fs]; omega
  have hb1 : q.freeStart + 2 ≤ 4096 := by rw [hq_fs]; omega
  have hb2 : q.numOfSlots + 1 < 65536 := by rw [hq_ns]; omega
  have hb3 : q.freeStart + 2 ≤ q.freeEnd := by rw [hq_fs, hq_fe]; omega
  have hstep2 := addToSlotTable_eq nfe hb0 hb1 hb2 hb3
  rw [hq_fs, hq_ns] at hstep2
  refine ⟨((⟨writeBytes q.buffer p.freeStart (le2 nfe)⟩ : Page).setFreeStart
    (p.freeStart + 2)).setNumOfSlots (p.numOfSlots + 1), ?_, ?_, ?_, ?_⟩
  · rw [hred, hstep1]
    simp only []
    rw [hstep2]
  · simp
    omega
  · simp
    rw [readLe2_writeBytes_lt (by omega : 16 + 2 ≤ readLe2 p.buffer 14)]
    exact hq_fe
  · simp
    omega

/-- `add_to_slot_table` fails its `debug_assert!` when the slot entry would
cross `free_end`. -/
theorem addToSlotTable_err {p : Page} (v : Nat)
    (h0 : 18 ≤ p.freeStart) (h1 : p.freeStart + 2 ≤ 4096)
    (h2 : p.numOfSlots + 1 < 65536) (h3 : p.freeEnd < p.freeStart + 2) :
    p.addToSlotTable v = .error .panic := by
  have h0' := h0; have h1' := h1; have h2' := h2; have h3' := h3
  simp at h0' h1' h2' h3'
  have hb1 : ((⟨writeBytes p.buffer p.freeStart (le2 v)⟩ : Page).setFreeStart
      (p.freeStart + 2)).numOfSlots = p.numOfSlots := by
    simp
    rw [readLe2_writeBytes_lt (by omega : 0 + 2 ≤ readLe2 p.buffer 14)]
  have hb2 : (((⟨writeBytes p.buffer p.freeStart (le2 v)⟩ : Page).setFreeStart
      (p.freeStart + 2)).setNumOfSlots (p.numOfSlots + 1)).freeStart =
      p.freeStart + 2 := by
    simp
    omega
  have hb3 : (((⟨writeBytes p.buffer p.freeStart (le2 v)⟩ : Page).setFreeStart
      (p.freeStart + 2)).setNumOfSlots (p.numOfSlots + 1)).freeEnd = p.freeEnd := by
    simp
    rw [readLe2_writeBytes_lt (by omega : 16 + 2 ≤ readLe2 p.buffer 14)]
  have hc1 : ¬ (PAGE_SIZE < p.freeStart + SIZE_OF_SLOT_TABLE_ITEM) := by
    simp; omega
  have hc2 : ¬ (65536 ≤ p.freeStart + SIZE_OF_SLOT_TABLE_ITEM) := by
    simp; omega
  have hc3 : ¬ (65536 ≤ p.numOfSlots + 1) := by omega
  have hc4 : (((⟨writeBytes p.buffer p.freeStart (le2 v)⟩ : Page).setFreeStart
      (p.freeStart + 2)).setNumOfSlots (p.numOfSlots + 1)).freeEnd <
      (((⟨writeBytes p.buffer p.freeStart (le2 v)⟩ : Page).setFreeStart
      (p.freeStart + 2)).setNumOfSlots (p.numOfSlots + 1)).freeStart := by
    rw [hb3, hb2]; omega
  unfold Page.addToSlotTable
  rw [if_neg hc1, if_neg hc2]
  simp only [SIZE_OF_SLOT_TABLE_ITEM]
  rw [hb1, if_neg hc3, if_pos hc4]

/-- `add_to_slot_table` panics on the slice bound when the slot entry would
cross the page end. -/
theorem addToSlotTable_err0 {p : Page} (v : Nat)
    (h : PAGE_SIZE < p.freeStart + SIZE_OF_SLOT_TABLE_ITEM) :
    p.addToSlotTable v = .error .panic := by
  unfold Page.addToSlotTable
  rw [if_pos h]

theorem pageInv_new (t c : Nat) : PageInv (Page.new t c) := by
  unfold PageInv
  rw [new_freeStart, new_freeEnd, new_numOfSlots]
  simp

/-! ## Claim C2 -/

/-- Claim C2: after any public page operation returns successfully, the
bookkeeping invariant holds: `header_size ≤ free_start ≤ free_end ≤
PAGE_SIZE` and `free_start − header_size = num_of_slots × 2`.  Stated as:
a fresh page satisfies the invariant, and `add_key_data`,
`add_overflow_data` and `add_to_slot_table` preserve it whenever they
return `Ok`. -/
theorem c2_theorem :
    (∀ t c, PageInv (Page.new t c)) ∧
    (∀ (p : Page) (key payload : Payload) (p' : Page) (payload' : Payload),
      PageInv p → p.addKeyData key payload = .ok (p', payload') → PageInv p') ∧
    (∀ (p : Page) (payload : Payload) (p' : Page) (payload' : Payload),
      PageInv p → p.addOverflowData payload = .ok (p', payload') → PageInv p') ∧
    (∀ (p : Page) (v : Nat) (p' : Page),
      PageInv p → p.addToSlotTable v = .ok p' → PageInv p') := by
  refine ⟨pageInv_new, ?_, ?_, ?_⟩
  · intro p key payload p' payload' hinv hok
    obtain ⟨i1, i2, i3, i4⟩ := hinv
    simp only [TOTAL_HEADER_SIZE, SIZE_FLAGS, SIZE_RIGHT_SIBLING, SIZE_LEFT_SIBLING,
      SIZE_LEFT_MOST, SIZE_PARENT_PAGE_ID, SIZE_PAGE_ID, SIZE_PAGE_TYPE,
      SIZE_NUM_OF_SLOTS, SIZE_FREE_START, SIZE_FREE_END, PAGE_SIZE] at i1 i3 i4
    have h5 : p.numOfSlots + 1 < 65536 := by omega
    by_cases hA : 8 + key.buffer.length ≤ p.freeEnd - p.freeStart
    · by_cases hB : 6 + key.buffer.length + payload.len < 65536
      · obtain ⟨p'', heq, hfs, hfe, hns⟩ :=
          addKeyData_eq key payload (by omega) i2 (by omega) hA hB h5 rfl rfl
        rw [heq] at hok
        simp only [Except.ok.injEq, Prod.mk.injEq] at hok
        obtain ⟨hok1, _⟩ := hok
        subst hok1
        unfold PageInv
        rw [hfs, hfe, hns]
        simp only [TOTAL_HEADER_SIZE, SIZE_FLAGS, SIZE_RIGHT_SIBLING,
          SIZE_LEFT_SIBLING, SIZE_LEFT_MOST, SIZE_PARENT_PAGE_ID, SIZE_PAGE_ID,
          SIZE_PAGE_TYPE, SIZE_NUM_OF_SLOTS, SIZE_FREE_START, SIZE_FREE_END,
          PAGE_SIZE]
        omega
      · rw [addKeyData_err_b key payload i2
          (by simp only [SIZE_OFFSET, SIZE_FLAGS]; omega)
          (by simp only [SIZE_OFFSET, SIZE_FLAGS, Payload.len] at hB ⊢; omega)] at hok
        cases hok
    · rw [addKeyData_err_a key payload i2
        (by simp only [SIZE_OFFSET, SIZE_FLAGS]; omega)] at hok
      cases hok
  · intro p payload p' payload' hinv hok
    obtain ⟨i1, i2, i3, i4⟩ := hinv
    simp only [TOTAL_HEADER_SIZE, SIZE_FLAGS, SIZE_RIGHT_SIBLING, SIZE_LEFT_SIBLING,
      SIZE_LEFT_MOST, SIZE_PARENT_PAGE_ID, SIZE_PAGE_ID, SIZE_PAGE_TYPE,
      SIZE_NUM_OF_SLOTS, SIZE_FREE_START, SIZE_FREE_END, PAGE_SIZE] at i1 i3 i4
    have h5 : p.numOfSlots + 1 < 65536 := by omega
    by_cases hA : 4 ≤ p.freeEnd - p.freeStart
    · obtain ⟨p'', heq, hfs, hfe, hns⟩ :=
        addOverflowData_eq payload (by omega) i2 (by omega) hA h5 rfl rfl
      rw [heq] at hok
      simp only [Except.ok.injEq, Prod.mk.injEq] at hok
      obtain ⟨hok1, _⟩ := hok
      subst hok1
      unfold PageInv
      rw [hfs, hfe, hns]
      simp only [TOTAL_HEADER_SIZE, SIZE_FLAGS, SIZE_RIGHT_SIBLING,
        SIZE_LEFT_SIBLING, SIZE_LEFT_MOST, SIZE_PARENT_PAGE_ID, SIZE_PAGE_ID,
        SIZE_PAGE_TYPE, SIZE_NUM_OF_SLOTS, SIZE_FREE_START, SIZE_FREE_END,
        PAGE_SIZE]
      have hmle : min payload.len (p.freeEnd - p.freeStart - 4) ≤
          p.freeEnd - p.freeStart - 4 := Nat.min_le_right _ _
      omega
    · rw [addOverflowData_err payload i2
        (by simp only [SIZE_OF_SLOT_TABLE_ITEM]; omega)] at hok
      cases hok
  · intro p v p' hinv hok
    obtain ⟨i1, i2, i3, i4⟩ := hinv
    simp only [TOTAL_HEADER_SIZE, SIZE_FLAGS, SIZE_RIGHT_SIBLING, SIZE_LEFT_SIBLING,
      SIZE_LEFT_MOST, SIZE_PARENT_PAGE_ID, SIZE_PAGE_ID, SIZE_PAGE_TYPE,
      SIZE_NUM_OF_SLOTS, SIZE_FREE_START, SIZE_FREE_END, PAGE_SIZE] at i1 i3 i4
    have h5 : p.numOfSlots + 1 < 65536 := by omega
    have i1n : 18 ≤ readLe2 p.buffer 14 := by simpa using i1
    have i2n : readLe2 p.buffer 14 ≤ readLe2 p.buffer 16 := by simpa using i2
    have i3n : readLe2 p.buffer 16 ≤ 4096 := by simpa using i3
    have h5n : readLe2 p.buffer 0 + 1 < 65536 := by simpa using h5
    by_cases hA : p.freeStart + 2 ≤ 4096
    · have hAn : readLe2 p.buffer 14 + 2 ≤ 4096 := by simpa using hA
      by_cases hB : p.freeStart + 2 ≤ p.freeEnd
      · have hBn : readLe2 p.buffer 14 + 2 ≤ readLe2 p.buffer 16 := by simpa using hB
        have heq := addToSlotTable_eq v (by omega) hA h5 hB
        rw [heq] at hok
        simp only [Except.ok.injEq] at hok
        subst hok
        have hb2 : (((⟨writeBytes p.buffer p.freeStart (le2 v)⟩ : Page).setFreeStart
            (p.freeStart + 2)).setNumOfSlots (p.numOfSlots + 1)).freeStart =
            p.freeStart + 2 := by
          simp
          omega
        have hb3 : (((⟨writeBytes p.buffer p.freeStart (le2 v)⟩ : Page).setFreeStart
            (p.freeStart + 2)).setNumOfSlots (p.numOfSlots + 1)).freeEnd =
            p.freeEnd := by
          simp
          rw [readLe2_writeBytes_lt (by omega : 16 + 2 ≤ readLe2 p.buffer 14)]
        have hb4 : (((⟨writeBytes p.buffer p.freeStart (le2 v)⟩ : Page).setFreeStart
            (p.freeStart + 2)).setNumOfSlots (p.numOfSlots + 1)).numOfSlots =
            p.numOfSlots + 1 := by
          simp
          omega
        unfold PageInv
        rw [hb2, hb3, hb4]
        simp only [TOTAL_HEADER_SIZE, SIZE_FLAGS, SIZE_RIGHT_SIBLING,
          SIZE_LEFT_SIBLING, SIZE_LEFT_MOST, SIZE_PARENT_PAGE_ID, SIZE_PAGE_ID,
          SIZE_PAGE_TYPE, SIZE_NUM_OF_SLOTS, SIZE_FREE_START, SIZE_FREE_END,
          PAGE_SIZE]
        omega
      · rw [addToSlotTable_err v (by omega) hA h5 (by omega)] at hok
        cases hok
    · have hAn : ¬ (readLe2 p.buffer 14 + 2 ≤ 4096) := by
        intro hcon
        exact hA (by simpa using hcon)
      rw [addToSlotTable_err0 v (by simp; omega)] at hok
      cases hok

/-- Witness for C2 at concrete inputs: the invariant holds on a fresh page
and on the page produced by a concrete successful `add_key_data` call. -/
theorem c2_witness :
    PageInv (Page.new DATA_PAGE 0) ∧
    ((Page.new DATA_PAGE 0).addKeyData ⟨[97, 98], 0, 1⟩ ⟨[1, 2, 3], 0, 1⟩).map
      (fun r => decide (PageInv r.1)) = .ok true := by
  obtain ⟨p', heq, -, -, -, -, -, -, -, -⟩ :=
    addKeyData_new_spec [97, 98] [1, 2, 3] 1 1 0 (by norm_num) (by norm_num) rfl rfl
  have hinv := c2_theorem.1 DATA_PAGE 0
  have hres := c2_theorem.2.1 (Page.new DATA_PAGE 0) ⟨[97, 98], 0, 1⟩
    ⟨[1, 2, 3], 0, 1⟩ p' _ hinv heq
  refine ⟨hinv, ?_⟩
  rw [heq]
  simp only [Except.map]
  rw [decide_eq_true hres]

/-! ## Claim C3 -/

/-- Claim C3 (amended): for every successful `add_key_data` call on a page
satisfying the invariant, with free space `F` and the source's record
overhead `header_size = 3·sizeof(u16) + 2·sizeof(u8) = 8` — which already
accounts for the slot-table entry, the record storing only two u16 length
fields and two u8 tags — the available net payload space is
`F − header_size − key_len` (not `F − H − S − key_len`), and the codec
copies exactly `min(payload_total_len, available_net)` payload bytes
(visible as the advance of the consumed payload's cursor). -/
theorem c3_theorem :
    ∀ (p : Page) (key payload : Payload) (p' : Page) (payload' : Payload),
      PageInv p → p.addKeyData key payload = .ok (p', payload') →
      (3 * SIZE_OFFSET + 2 * SIZE_FLAGS) + key.buffer.length ≤
        p.freeEnd - p.freeStart ∧
      payload'.cursorPos = payload.cursorPos +
        min payload.len
          (p.freeEnd - p.freeStart - (3 * SIZE_OFFSET + 2 * SIZE_FLAGS) -
            key.buffer.length) := by
  intro p key payload p' payload' hinv hok
  obtain ⟨i1, i2, i3, i4⟩ := hinv
  simp only [TOTAL_HEADER_SIZE, SIZE_FLAGS, SIZE_RIGHT_SIBLING, SIZE_LEFT_SIBLING,
    SIZE_LEFT_MOST, SIZE_PARENT_PAGE_ID, SIZE_PAGE_ID, SIZE_PAGE_TYPE,
    SIZE_NUM_OF_SLOTS, SIZE_FREE_START, SIZE_FREE_END, PAGE_SIZE] at i1 i3 i4
  have h5 : p.numOfSlots + 1 < 65536 := by omega
  by_cases hA : 8 + key.buffer.length ≤ p.freeEnd - p.freeStart
  · by_cases hB : 6 + key.buffer.length + payload.len < 65536
    · obtain ⟨p'', heq, -, -, -⟩ :=
        addKeyData_eq key payload (by omega) i2 (by omega) hA hB h5 rfl rfl
      rw [heq] at hok
      simp only [Except.ok.injEq, Prod.mk.injEq] at hok
      obtain ⟨-, hok2⟩ := hok
      subst hok2
      simp only [SIZE_OFFSET, SIZE_FLAGS]
      constructor
      · omega
      · omega
    · rw [addKeyData_err_b key payload i2
        (by simp only [SIZE_OFFSET, SIZE_FLAGS]; omega)
        (by simp only [SIZE_OFFSET, SIZE_FLAGS, Payload.len] at hB ⊢; omega)] at hok
      cases hok
  · rw [addKeyData_err_a key payload i2
      (by simp only [SIZE_OFFSET, SIZE_FLAGS]; omega)] at hok
    cases hok

/-- Claim C3 counterexample: on a fresh data page (free size `F = 4078`)
with a 3-byte key and a 4100-byte payload, the code copies
`F − 8 − 3 = 4067` bytes, not `min(4100, F − H − S − 3) = 4065` as the
claim's formula (which adds the slot-entry size `S` on top of `H`)
states. -/
theorem c3_counterexample :
    ((Page.new DATA_PAGE 0).addKeyData ⟨[1, 2, 3], 0, 1⟩
      ⟨List.replicate 4100 7, 0, 1⟩).map (fun r => r.2.cursorPos) = .ok 4067 ∧
    ¬ ((4067 : Nat) = min (List.replicate (4100 : Nat) (7 : Nat)).length
        (4078 - (3 * SIZE_OFFSET + 2 * SIZE_FLAGS) - SIZE_OF_SLOT_TABLE_ITEM - 3)) := by
  obtain ⟨p', heq, -, -, -, -, -, -, -, -⟩ :=
    addKeyData_new_spec [1, 2, 3] (List.replicate 4100 7) 1 1 0
      (by simp only [List.length_cons, List.length_nil]; omega)
      (by simp only [List.length_replicate, List.length_cons, List.length_nil]; omega)
      (show (4067 : Nat) = min (4070 - ([1, 2, 3] : List Nat).length)
          (List.replicate (4100 : Nat) (7 : Nat)).length by
        simp only [List.length_replicate, List.length_cons, List.length_nil]; omega)
      (show (20 : Nat) = 4096 - (6 + ([1, 2, 3] : List Nat).length + 4067) by
        simp only [List.length_cons, List.length_nil])
  constructor
  · rw [heq]
    rfl
  · simp only [SIZE_OFFSET, SIZE_FLAGS, SIZE_OF_SLOT_TABLE_ITEM,
      List.length_replicate]
    omega

/-- Witness for C3 at a concrete input: a 1-byte key and 2-byte payload on a
fresh page, where the whole payload fits. -/
theorem c3_witness :
    PageInv (Page.new DATA_PAGE 0) ∧
    ((Page.new DATA_PAGE 0).addKeyData ⟨[9], 0, 1⟩ ⟨[1, 2], 0, 1⟩).map
      (fun r => r.2.cursorPos) =
      .ok (0 + min (Payload.len ⟨[1, 2], 0, 1⟩)
        ((Page.new DATA_PAGE 0).freeEnd - (Page.new DATA_PAGE 0).freeStart -
          (3 * SIZE_OFFSET + 2 * SIZE_FLAGS) - ([9] : List Nat).length)) := by
  obtain ⟨p', heq, -, -, -, -, -, -, -, -⟩ :=
    addKeyData_new_spec [9] [1, 2] 1 1 0 (by norm_num) (by norm_num) rfl rfl
  have h := c3_theorem (Page.new DATA_PAGE 0) ⟨[9], 0, 1⟩ ⟨[1, 2], 0, 1⟩ p' _
    (pageInv_new DATA_PAGE 0) heq
  refine ⟨pageInv_new DATA_PAGE 0, ?_⟩
  rw [heq]
  simp only [Except.map]
  exact congrArg Except.ok h.2

/-! ## Claim C4 -/

/-- Claim C4 is a code bug: `add_key_data` performs no space check at all.
This theorem evaluates the failing input: after one record fills the page
down to `F = 8` free bytes, a further `add_key_data` with an empty key —
for which the claim requires a `NoSpace` error and an untouched buffer
because `F < H + S + key_len + 1 = 11` — instead succeeds, mutates the page
(`num_of_slots` becomes 2) and stores zero payload bytes (the returned
payload's cursor does not advance). -/
theorem c4_theorem :
    ((Page.new DATA_PAGE 0).addKeyData ⟨[5], 0, 1⟩
      ⟨List.replicate 4061 0, 0, 1⟩).map
      (fun r => (r.1.freeEnd - r.1.freeStart,
        (r.1.addKeyData ⟨[], 0, 1⟩ ⟨[9], 0, 1⟩).map
          (fun r2 => (r2.1.numOfSlots, r2.2.cursorPos)))) =
      .ok (8, .ok (2, 0)) ∧
    (8 : Nat) < (3 * SIZE_OFFSET + 2 * SIZE_FLAGS) + SIZE_OF_SLOT_TABLE_ITEM +
      ([] : List Nat).length + 1 := by
  obtain ⟨p1, heq1, hfs1, hfe1, hns1, -, -, -, -, -⟩ :=
    addKeyData_new_spec [5] (List.replicate 4061 0) 1 1 0
      (by simp only [List.length_cons, List.length_nil]; omega)
      (by simp only [List.length_replicate, List.length_cons, List.length_nil]; omega)
      (show (4061 : Nat) = min (4070 - ([5] : List Nat).length)
          (List.replicate (4061 : Nat) (0 : Nat)).length by
        simp only [List.length_replicate, List.length_cons, List.length_nil]; omega)
      (show (28 : Nat) = 4096 - (6 + ([5] : List Nat).length + 4061) by
        simp only [List.length_cons, List.length_nil])
  obtain ⟨p2, heq2, hfs2, hfe2, hns2⟩ :=
    addKeyData_eq ⟨[], 0, 1⟩ ⟨[9], 0, 1⟩
      (show (18 : Nat) ≤ p1.freeStart by rw [hfs1]; norm_num)
      (show p1.freeStart ≤ p1.freeEnd by rw [hfs1, hfe1]; norm_num)
      (show p1.freeEnd ≤ 4096 by rw [hfe1]; norm_num)
      (show 8 + ([] : List Nat).length ≤ p1.freeEnd - p1.freeStart by
        rw [hfs1, hfe1]; simp)
      (show 6 + ([] : List Nat).length + Payload.len ⟨[9], 0, 1⟩ < 65536 by
        simp [Payload.len])
      (show p1.numOfSlots + 1 < 65536 by rw [hns1]; norm_num)
      (show (0 : Nat) = min (p1.freeEnd - p1.freeStart - 8 - ([] : List Nat).length)
          (Payload.len ⟨[9], 0, 1⟩) by rw [hfs1, hfe1]; simp [Payload.len])
      (show (22 : Nat) = p1.freeEnd - (6 + ([] : List Nat).length + 0) by
        rw [hfe1]; simp)
  constructor
  · rw [heq1]
    simp only [Except.map]
    rw [hfe1, hfs1, heq2]
    simp only [Except.map]
    rw [hns2, hns1]
  · simp

/-! ## Claim C5 -/

/-- Claim C5 counterexample: the source initializes `NEXT_PAGE_ID` at 0
(`static mut NEXT_PAGE_ID: o16 = o16(0)`), so the first page ever allocated
receives id 0, not 1 — and `new_leaf` from the pristine state returns head
page id 0, making `right_sibling == 0` ambiguous for it. -/
theorem c5_counterexample :
    (Page.new DATA_PAGE 0).pageId = 0 ∧ (Page.new DATA_PAGE 0).pageId ≠ 1 := by
  rw [new_pageId]
  norm_num

/-- Claim C5 (amended): allocation assigns the current counter value as the
page id (so the first page, allocated when the counter is 0, receives id 0,
not 1), and later allocations receive strictly larger ids while the counter
stays below 2^16. -/
theorem c5_theorem :
    (∀ t, (Page.new t 0).pageId = 0) ∧
    (∀ t t' c c', c < c' → c' < 65536 →
      (Page.new t c).pageId < (Page.new t' c').pageId) := by
  constructor
  · intro t
    rw [new_pageId]
  · intro t t' c c' h1 h2
    rw [new_pageId, new_pageId, Nat.mod_eq_of_lt (by omega), Nat.mod_eq_of_lt h2]
    exact h1

/-- Witness for C5 at concrete counter values 0 and 1. -/
theorem c5_witness :
    (Page.new DATA_PAGE 0).pageId = 0 ∧
    (Page.new DATA_PAGE 0).pageId < (Page.new DATA_PAGE 1).pageId :=
  ⟨c5_theorem.1 DATA_PAGE, c5_theorem.2 DATA_PAGE DATA_PAGE 0 1 (by norm_num) (by norm_num)⟩

/-! ## Claim C6 -/

/-- Claim C6 counterexample: a freshly allocated inner page has
`free_start = 18`, not 20 — the source's `TOTAL_HEADER_SIZE` sums to 18 —
so `free_size` is 4078, not 4076. -/
theorem c6_counterexample :
    (Page.newInner 0).freeStart = 18 ∧
    ¬ ((Page.newInner 0).freeStart = 20 ∧ (Page.newInner 0).freeSize = .ok 4076) := by
  unfold Page.newInner
  constructor
  · exact new_freeStart INNER_PAGE 0
  · intro hcon
    have := hcon.1
    rw [new_freeStart] at this
    cases this

/-- Claim C6 (amended): a freshly allocated inner page has
`num_of_slots = 0`, `free_start = 18`, `free_end = 4096` and
`free_size() = 4078` — the header occupies exactly 18 bytes
(`TOTAL_HEADER_SIZE`). -/
theorem c6_theorem : ∀ c,
    (Page.newInner c).numOfSlots = 0 ∧
    (Page.newInner c).freeStart = TOTAL_HEADER_SIZE ∧
    (Page.newInner c).freeEnd = PAGE_SIZE ∧
    (Page.newInner c).freeSize = .ok 4078 := by
  intro c
  unfold Page.newInner
  exact ⟨new_numOfSlots INNER_PAGE c, new_freeStart INNER_PAGE c,
    new_freeEnd INNER_PAGE c, new_freeSize INNER_PAGE c⟩

/-! ## Claim C9 -/

/-- Claim C9 counterexample: even with a backing file holding one full
page at offset 0 (so the claim's "successful miss" scenario: the read
would not pass end-of-file), a cache-miss read of page 0 panics — the
source opens `index.000` write-only (`write(true).create(true)`, no
`.read(true)`), so `read_exact(..).unwrap()` panics on every miss; it
neither returns the page, nor `NotFound`, nor inserts anything into the
cache.  The same happens with an empty file. -/
theorem c9_counterexample :
    ioRead emptyIoCache (List.replicate 4096 0) 0 = .error .panic ∧
    ioRead emptyIoCache [] 0 = .error .panic := by
  constructor
  · rfl
  · rfl

/-- Claim C9 (amended): on every cache miss the read panics — `read`
falls back to `read_from_disk`, which opens `index.000` with a write-only
handle (`OpenOptions::new().write(true).create(true)`), so `read_exact`
fails and its `.unwrap()` panics regardless of the backing file's
content; no miss returns `NotFound`, succeeds, or inserts into the cache
(only `write` inserts).  On a hit the cached page is returned with the
cache unchanged. -/
theorem c9_theorem :
    ∀ (cache : IoCache) (file : List Nat) (page_id : Nat),
      (cache (page_id % 65536) = none →
        ioRead cache file page_id = .error .panic) ∧
      (∀ p, cache (page_id % 65536) = some p →
        ioRead cache file page_id = .ok (some p, cache)) := by
  intro cache file page_id
  constructor
  · intro hmiss
    unfold ioRead read_from_disk
    rw [hmiss]
  · intro p hhit
    unfold ioRead
    rw [hhit]

/-- Witness for C9: the pristine io cache misses page 5 (panic), and after
caching a fresh page under id 3 a read of 3 is a hit returning it. -/
theorem c9_witness :
    ioRead emptyIoCache (List.replicate 4096 0) 5 = .error .panic ∧
    ioRead (cacheInsert emptyIoCache 3 (Page.new DATA_PAGE 3)) [] 3 =
      .ok (some (Page.new DATA_PAGE 3),
        cacheInsert emptyIoCache 3 (Page.new DATA_PAGE 3)) :=
  ⟨(c9_theorem emptyIoCache (List.replicate 4096 0) 5).1 rfl,
    (c9_theorem (cacheInsert emptyIoCache 3 (Page.new DATA_PAGE 3)) [] 3).2
      (Page.new DATA_PAGE 3) rfl⟩

/-! ## Claim C10 -/

/-- Claim C10: the u16 length field written by `add_overflow_data` into a
fresh overflow page equals the number of payload bytes actually stored
there, `min(remaining_payload_len, free_size − 2·sizeof(u16))` with
`free_size = 4078` on a fresh page — unlike the head record written by
`add_key_data`, whose `payload_len` field stores the *total* payload
length — and `get_overflow_data` returns exactly the stored bytes. -/
theorem c10_theorem :
    (∀ (B : List Nat) (pos pt c : Nat),
      ∃ p' : Page,
        (Page.new DATA_PAGE c).addOverflowData ⟨B, pos, pt⟩ =
          .ok (p', ⟨B, pos + min (B.length - pos) (4078 - 2 * SIZE_OF_SLOT_TABLE_ITEM), pt⟩) ∧
        readLe2 p'.buffer (readLe2 p'.buffer TOTAL_HEADER_SIZE) =
          min (B.length - pos) (4078 - 2 * SIZE_OF_SLOT_TABLE_ITEM) ∧
        p'.getOverflowData =
          .ok ((B.drop pos).take (min (B.length - pos) (4078 - 2 * SIZE_OF_SLOT_TABLE_ITEM)))) ∧
    (∀ (K B : List Nat) (kt pt c : Nat),
      K.length ≤ 4070 → 6 + K.length + B.length ≤ 65535 →
      ∃ (p' : Page) (payload' : Payload),
        (Page.new DATA_PAGE c).addKeyData ⟨K, 0, kt⟩ ⟨B, 0, pt⟩ = .ok (p', payload') ∧
        readLe2 p'.buffer (readLe2 p'.buffer TOTAL_HEADER_SIZE) = B.length) := by
  constructor
  · intro B pos pt c
    have h4 : (4078 - 2 * SIZE_OF_SLOT_TABLE_ITEM : Nat) = 4074 := by simp
    rw [h4]
    obtain ⟨p', heq, -, -, -, -, -, htab, hgod⟩ :=
      addOverflowData_new_spec B pos pt c rfl rfl
    refine ⟨p', heq, ?_, hgod⟩
    rw [show (TOTAL_HEADER_SIZE : Nat) = 18 from rfl, htab]
    -- the length field at the slot offset
    have := hgod
    unfold Page.getOverflowData at this
    simp only [] at this
    rw [show (TOTAL_HEADER_SIZE : Nat) = 18 from rfl, htab] at this
    by_cases hc : PAGE_SIZE < 4094 - min (B.length - pos) 4074 + SIZE_OF_SLOT_TABLE_ITEM
    · rw [if_pos hc] at this
      cases this
    · rw [if_neg hc] at this
      by_cases hc2 : PAGE_SIZE < 4094 - min (B.length - pos) 4074 + SIZE_PAGE_ID +
          readLe2 p'.buffer (4094 - min (B.length - pos) 4074)
      · rw [if_pos hc2] at this
        cases this
      · rw [if_neg hc2] at this
        simp only [Except.ok.injEq] at this
        have hlen := congrArg List.length this
        rw [readBytes_length] at hlen
        rw [hlen]
        simp
  · intro K B kt pt c hk hn
    obtain ⟨p', heq, -, -, -, -, -, htab, hplen, -, -⟩ :=
      addKeyData_new_spec K B kt pt c hk hn rfl rfl
    refine ⟨p', _, heq, ?_⟩
    rw [show (TOTAL_HEADER_SIZE : Nat) = 18 from rfl, htab, hplen]

/-- Witness for C10's head-record part at a concrete input. -/
theorem c10_witness :
    (([102] : List Nat).length ≤ 4070) ∧
    (6 + ([102] : List Nat).length + ([1, 2, 3] : List Nat).length ≤ 65535) ∧
    (∃ (p' : Page) (payload' : Payload),
      (Page.new DATA_PAGE 0).addKeyData ⟨[102], 0, 1⟩ ⟨[1, 2, 3], 0, 1⟩ =
        .ok (p', payload') ∧
      readLe2 p'.buffer (readLe2 p'.buffer TOTAL_HEADER_SIZE) =
        ([1, 2, 3] : List Nat).length) :=
  ⟨by norm_num, by norm_num,
    c10_theorem.2 [102] [1, 2, 3] 1 1 0 (by norm_num) (by norm_num)⟩

/-! ## Overflow-chain segment lemmas -/

theorem segsF_nilList : ∀ f, segsF f [] = [] := by
  intro f
  cases f <;> simp [segsF]

theorem segsF_congr : ∀ (f g : Nat) (r : List Nat),
    r.length ≤ f → r.length ≤ g → segsF f r = segsF g r := by
  intro f
  induction f using Nat.strong_induction_on with
  | _ f IH =>
    intro g r hf hg
    match f, g, r with
    | _, _, [] => rw [segsF_nilList, segsF_nilList]
    | f + 1, g + 1, a :: l =>
      simp only [segsF]
      rw [if_neg (show ¬ ((a :: l).length = 0) by simp),
        if_neg (show ¬ ((a :: l).length = 0) by simp)]
      refine congrArg _ (IH f (by omega) g _ ?_ ?_) <;>
        · simp only [List.length_drop]
          omega

theorem segs_cons {r : List Nat} (h : 0 < r.length) :
    segs r = r.take (min r.length 4074) :: segs (r.drop (min r.length 4074)) := by
  obtain ⟨a, l, rfl⟩ : ∃ a l, r = a :: l := by
    cases r with
    | nil => simp at h
    | cons a l => exact ⟨a, l, rfl⟩
  unfold segs
  simp only [List.length_cons, segsF]
  rw [if_neg (show ¬ (l.length + 1 = 0) by simp)]
  refine congrArg _ (segsF_congr _ _ _ ?_ ?_) <;>
    · simp only [List.length_drop, List.length_cons]
      omega

theorem segs_len_zero {r : List Nat} (h : r.length = 0) : segs r = [] := by
  unfold segs
  rw [h]
  rfl

theorem segs_flatten : ∀ n (r : List Nat), r.length ≤ n → (segs r).flatten = r := by
  intro n
  induction n using Nat.strong_induction_on with
  | _ n IH =>
    intro r hn
    by_cases h : r.length = 0
    · have hr : r = [] := List.length_eq_zero.mp h
      subst hr
      rfl
    · rw [segs_cons (by omega)]
      simp only [List.flatten_cons]
      have hm : 1 ≤ min r.length 4074 := by omega
      cases n with
      | zero => omega
      | succ n =>
        rw [IH n (by omega) _ (by simp; omega)]
        exact List.take_append_drop _ _

theorem segs_length_le : ∀ n (r : List Nat), r.length ≤ n → (segs r).length ≤ r.length := by
  intro n
  induction n using Nat.strong_induction_on with
  | _ n IH =>
    intro r hn
    by_cases h : r.length = 0
    · rw [segs_len_zero h]
      simp
    · rw [segs_cons (by omega)]
      have hm : 1 ≤ min r.length 4074 := by omega
      cases n with
      | zero => omega
      | succ n =>
        have := IH n (by omega) (r.drop (min r.length 4074)) (by simp; omega)
        simp only [List.length_cons]
        simp at this
        omega

theorem segs_pos_length {r : List Nat} (h : 0 < r.length) : 0 < (segs r).length := by
  rw [segs_cons h]
  simp

/-! ## Cache lemmas -/

theorem cacheInsert_same {c : Cache} {k : Nat} {p : Page} :
    cacheInsert c k p k = some p := by
  simp [cacheInsert]

theorem cacheInsert_other {c : Cache} {k k' : Nat} {p : Page} (h : k' ≠ k) :
    cacheInsert c k p k' = c k' := by
  simp [cacheInsert, h]

/-! ## The chain walk of `get_key_payload` -/

theorem walkChain_isChain :
    ∀ (ds : List (List Nat)) (cache : Cache) (id : Nat) (acc : List Nat) (fuel : Nat),
      IsChain cache id ds → ds.length ≤ fuel →
      walkChain cache fuel id acc = .ok (acc ++ ds.flatten) := by
  intro ds
  induction ds with
  | nil =>
    intro cache id acc fuel h hf
    cases h
    cases fuel <;> simp [walkChain]
  | cons d rest IH =>
    intro cache id acc fuel h hf
    cases h with
    | cons hid hpg hdata hrest =>
      cases fuel with
      | zero => simp at hf
      | succ f =>
        simp only [walkChain]
        rw [if_neg hid, hpg]
        simp only [hdata]
        rw [IH _ _ _ f hrest (by simp at hf; omega)]
        simp

theorem isChain_of_run :
    ∀ (ds : List (List Nat)) (s : Nat) (cache : Cache), 1 ≤ s →
      (∀ i, i < ds.length → ∃ pg : Page, cache (s + i) = some pg ∧
        pg.getOverflowData = .ok (ds.getD i []) ∧
        pg.rightSibling = (if i + 1 = ds.length then 0 else s + i + 1)) →
      IsChain cache (if ds.length = 0 then 0 else s) ds := by
  intro ds
  induction ds with
  | nil =>
    intro s cache hs hfacts
    simp only [List.length_nil, if_pos rfl]
    exact IsChain.nil
  | cons d rest IH =>
    intro s cache hs hfacts
    rw [if_neg (show ¬ ((d :: rest).length = 0) by simp)]
    obtain ⟨pg, hpg, hdata, hrs⟩ := hfacts 0 (by simp)
    rw [Nat.add_zero] at hpg
    simp only [List.getD_cons_zero] at hdata
    simp only [List.length_cons] at hrs
    have hshift : ∀ i, i < rest.length → ∃ pg' : Page, cache (s + 1 + i) = some pg' ∧
        pg'.getOverflowData = .ok (rest.getD i []) ∧
        pg'.rightSibling = (if i + 1 = rest.length then 0 else s + 1 + i + 1) := by
      intro i hi
      obtain ⟨pg', hpg', hdata', hrs'⟩ := hfacts (i + 1) (by simp; omega)
      simp only [List.length_cons] at hrs'
      refine ⟨pg', ?_, ?_, ?_⟩
      · rw [show s + 1 + i = s + (i + 1) by omega]
        exact hpg'
      · simpa using hdata'
      · rw [hrs']
        by_cases hc : i + 1 = rest.length
        · rw [if_pos (show i + 1 + 1 = rest.length + 1 by omega), if_pos hc]
        · rw [if_neg (show ¬ (i + 1 + 1 = rest.length + 1) by omega), if_neg hc]
          omega
    have hIH := IH (s + 1) cache (by omega) hshift
    have hrest : IsChain cache pg.rightSibling rest := by
      by_cases hr : rest.length = 0
      · have hr' : rest = [] := List.length_eq_zero.mp hr
        subst hr'
        rw [hrs, if_pos (show (0 + 1 : Nat) = ([] : List (List Nat)).length + 1 by simp)]
        exact IsChain.nil
      · rw [hrs, if_neg (show ¬ ((0 + 1 : Nat) = rest.length + 1) by omega)]
        rw [if_neg hr] at hIH
        simpa using hIH
    exact IsChain.cons (by omega) hpg hdata hrest

/-! ## The overflow loop of `new_leaf` -/

theorem newLeafLoop_spec :
    ∀ (r : Nat) (B : List Nat) (pos pt : Nat) (cache : Cache) (ct prevId : Nat)
      (pp : Page) (fuel : Nat),
      pos + r = B.length →
      r ≤ fuel →
      1 ≤ ct →
      ct + (segs (B.drop pos)).length ≤ 65535 →
      prevId < ct →
      (∀ i, i < (segs (B.drop pos)).length → cache (ct + i) = none) →
      cache prevId = some pp →
      ∃ cache' : Cache,
        newLeafLoop fuel cache ct prevId ⟨B, pos, pt⟩ =
          .ok (cache', ct + (segs (B.drop pos)).length) ∧
        (∀ x, x ≠ prevId → (x < ct ∨ ct + (segs (B.drop pos)).length ≤ x) →
          cache' x = cache x) ∧
        cache' prevId = some (if 0 < r then pp.setRightSibling ct else pp) ∧
        (∀ i, i < (segs (B.drop pos)).length →
          ∃ pg : Page, cache' (ct + i) = some pg ∧
            pg.freeStart = 20 ∧
            pg.freeEnd = 4094 - ((segs (B.drop pos)).getD i []).length ∧
            pg.pageId = ct + i ∧
            pg.rightSibling =
              (if i + 1 = (segs (B.drop pos)).length then 0 else ct + i + 1) ∧
            pg.getOverflowData = .ok ((segs (B.drop pos)).getD i [])) := by
  intro r
  induction r using Nat.strong_induction_on with
  | _ r IH =>
    intro B pos pt cache ct prevId pp fuel hlen hfuel hct1 hct2 hprev hfresh hpp
    have hR : (B.drop pos).length = r := by simp; omega
    by_cases hrz : r = 0
    · subst hrz
      have hsegs0 : segs (B.drop pos) = [] := segs_len_zero (by omega)
      rw [hsegs0]
      have hstop : ¬ (Payload.len ⟨B, pos, pt⟩ > 0) := by
        simp [Payload.len]
        omega
      refine ⟨cache, ?_, fun x _ _ => rfl, ?_, ?_⟩
      · cases fuel with
        | zero =>
          simp only [newLeafLoop]
          rw [if_neg hstop]
          simp
        | succ f =>
          simp only [newLeafLoop]
          rw [if_neg hstop]
          simp
      · rw [if_neg (by omega)]
        exact hpp
      · intro i hi
        simp at hi
    · have hr0 : 0 < r := by omega
      cases fuel with
      | zero => omega
      | succ f =>
        have hsegs : segs (B.drop pos) =
            (B.drop pos).take (min r 4074) ::
              segs ((B.drop pos).drop (min r 4074)) := by
          have := segs_cons (r := B.drop pos) (by omega)
          rw [hR] at this
          exact this
        have hdropdrop : (B.drop pos).drop (min r 4074) = B.drop (pos + min r 4074) := by
          rw [List.drop_drop]
        have hL : (segs (B.drop pos)).length =
            (segs (B.drop (pos + min r 4074))).length + 1 := by
          rw [hsegs, hdropdrop]
          simp
        have hm1 : 1 ≤ min r 4074 := by omega
        -- unfold one loop iteration
        simp only [newLeafLoop]
        rw [if_pos (show Payload.len ⟨B, pos, pt⟩ > 0 by simp [Payload.len]; omega)]
        rw [if_neg (show ¬ (65536 ≤ ct + 1) by omega)]
        have hid : (Page.new DATA_PAGE ct).pageId = ct := by
          rw [new_pageId]
          exact Nat.mod_eq_of_lt (by omega)
        obtain ⟨p1, hov, hfs1, hfe1, hns1, hrs1, hid1, htab1, hgod1⟩ :=
          addOverflowData_new_spec B pos pt ct
            (show min r 4074 = min (B.length - pos) 4074 by omega) rfl
        rw [hid, hov]
        simp only []
        have hlook : cacheInsert cache ct p1 prevId = some pp := by
          rw [cacheInsert_other (show prevId ≠ ct by omega)]
          exact hpp
        rw [hlook]
        simp only []
        -- apply the induction hypothesis to the recursive call
        obtain ⟨cache3, hloop, hframe, hprevE, hchain⟩ :=
          IH (r - min r 4074) (by omega) B (pos + min r 4074) pt
            (cacheInsert (cacheInsert cache ct p1) prevId (pp.setRightSibling ct))
            (ct + 1) ct p1 f
            (by omega)
            (by omega)
            (by omega)
            (by rw [hL] at hct2; omega)
            (by omega)
            (by
              intro i hi
              rw [cacheInsert_other (show ct + 1 + i ≠ prevId by omega),
                cacheInsert_other (show ct + 1 + i ≠ ct by omega)]
              have := hfresh (i + 1) (by
                rw [hsegs]
                simp only [List.length_cons]
                rw [← hdropdrop] at hi
                omega)
              rw [show ct + (i + 1) = ct + 1 + i by omega] at this
              exact this)
            (by
              rw [cacheInsert_other (show ct ≠ prevId by omega), cacheInsert_same])
        refine ⟨cache3, ?_, ?_, ?_, ?_⟩
        · rw [hloop]
          rw [hL, ← hdropdrop]
          rw [show ct + 1 + (segs ((B.drop pos).drop (min r 4074))).length =
            ct + ((segs ((B.drop pos).drop (min r 4074))).length + 1) by omega]
        · intro x hx1 hx2
          have hx3 : x ≠ ct := by omega
          rw [hframe x hx3 (by rw [← hdropdrop] at *; omega)]
          rw [cacheInsert_other hx1, cacheInsert_other hx3]
        · rw [if_pos hr0]
          have := hframe prevId (show prevId ≠ ct by omega) (Or.inl (by omega))
          rw [this, cacheInsert_same]
        · intro i hi
          cases i with
          | zero =>
            have hc3ct : cache3 ct = some (if 0 < r - min r 4074 then
                p1.setRightSibling (ct + 1) else p1) := by
              rw [show ct = ct + 0 by omega] at hprevE ⊢
              exact hprevE
            have hgetd0 : (segs (B.drop pos)).getD 0 [] = (B.drop pos).take (min r 4074) := by
              rw [hsegs]
              simp
            have htkl : ((B.drop pos).take (min r 4074)).length = min r 4074 := by
              simp
              omega
            have h12 : 12 ≤ readLe2 p1.buffer 18 := by
              rw [htab1]
              omega
            by_cases hrm : 0 < r - min r 4074
            · have hLpos : 0 < (segs ((B.drop pos).drop (min r 4074))).length := by
                apply segs_pos_length
                rw [hdropdrop]
                simp
                omega
              rw [if_pos hrm] at hc3ct
              refine ⟨p1.setRightSibling (ct + 1), hc3ct, ?_, ?_, ?_, ?_, ?_⟩
              · rw [setRS_freeStart, hfs1]
              · rw [setRS_freeEnd, hfe1, hgetd0, htkl]
              · rw [setRS_pageId, hid1]
                exact Nat.mod_eq_of_lt (by omega)
              · rw [setRS_rightSibling]
                rw [if_neg (by rw [hL, ← hdropdrop]; omega)]
                exact Nat.mod_eq_of_lt (by omega)
              · rw [getOverflowData_setRS h12, hgod1, hgetd0]
            · have hLz : (segs ((B.drop pos).drop (min r 4074))).length = 0 := by
                have : ((B.drop pos).drop (min r 4074)).length = 0 := by
                  rw [hdropdrop]
                  simp
                  omega
                rw [segs_len_zero this]
                rfl
              rw [if_neg hrm] at hc3ct
              refine ⟨p1, hc3ct, ?_, ?_, ?_, ?_, ?_⟩
              · exact hfs1
              · rw [hfe1, hgetd0, htkl]
              · rw [hid1]
                exact Nat.mod_eq_of_lt (by omega)
              · rw [if_pos (by rw [hL, ← hdropdrop]; omega)]
                exact hrs1
              · rw [hgod1, hgetd0]
          | succ i =>
            have hi' : i < (segs (B.drop (pos + min r 4074))).length := by
              rw [hL] at hi
              omega
            obtain ⟨pg, hpg, hfs, hfe, hpid, hprs, hgod⟩ := hchain i hi'
            refine ⟨pg, ?_, hfs, ?_, ?_, ?_, ?_⟩
            · rw [show ct + (i + 1) = ct + 1 + i by omega]
              exact hpg
            · rw [hfe, hsegs]
              simp only [List.getD_cons_succ]
              rw [hdropdrop]
            · rw [hpid]
              omega
            · rw [hprs, hsegs]
              simp only [List.length_cons]
              rw [hdropdrop]
              by_cases hc : i + 1 = (segs (B.drop (pos + min r 4074))).length
              · rw [if_pos hc, if_pos (by omega)]
              · rw [if_neg hc, if_neg (by omega)]
                omega
            · rw [hgod, hsegs]
              simp only [List.getD_cons_succ]
              rw [hdropdrop]

/-! ## End-to-end run of `new_leaf` from a pristine state -/

theorem newLeaf_run (K B : List Nat) (kt pt : Nat) {c0 nfe : Nat}
    (hk : K.length ≤ 4070) (hn : 6 + K.length + B.length ≤ 65535)
    (hc0 : c0 = min (4070 - K.length) B.length)
    (hnfe : nfe = 4096 - (6 + K.length + c0)) :
    ∃ (cache' : Cache) (hp : Page),
      Page.newLeaf emptyCache 0 ⟨K, 0, kt⟩ ⟨B, 0, pt⟩ =
        .ok (cache', 1 + (segs (B.drop c0)).length, 0) ∧
      cache' 0 = some hp ∧
      hp.freeStart = 20 ∧ hp.freeEnd = nfe ∧ hp.pageId = 0 ∧
      hp.rightSibling = (if 0 < B.length - c0 then 1 else 0) ∧
      (∀ i, i < (segs (B.drop c0)).length →
        ∃ pg : Page, cache' (1 + i) = some pg ∧
          pg.freeStart = 20 ∧
          pg.freeEnd = 4094 - ((segs (B.drop c0)).getD i []).length ∧
          pg.pageId = 1 + i ∧
          pg.rightSibling =
            (if i + 1 = (segs (B.drop c0)).length then 0 else 1 + i + 1) ∧
          pg.getOverflowData = .ok ((segs (B.drop c0)).getD i [])) ∧
      (∀ x, 1 + (segs (B.drop c0)).length ≤ x → cache' x = none) ∧
      hp.getKeyPayload cache' B.length 0 = .ok B := by
  have hc0le : c0 ≤ B.length := by omega
  have hnfe20 : 20 ≤ nfe := by omega
  have hnfe4090 : nfe ≤ 4090 := by omega
  have hsum : nfe + (6 + K.length + c0) = 4096 := by omega
  have hBle : B.length ≤ 65529 := by omega
  have hLle : (segs (B.drop c0)).length ≤ B.length - c0 := by
    have := segs_length_le (B.drop c0).length (B.drop c0) (le_refl _)
    simpa using this
  obtain ⟨p', hov, hfs', hfe', hns', hrs', hid', h18', hlen', hklen', hbytes'⟩ :=
    addKeyData_new_spec K B kt pt 0 hk hn hc0 hnfe
  rw [Nat.zero_mod] at hid'
  obtain ⟨cache', hloop, hframe, hprevE, hchain⟩ :=
    newLeafLoop_spec (B.length - c0) B c0 pt
      (cacheInsert (cacheInsert emptyCache 0 (Page.new DATA_PAGE 0)) 0 p')
      1 0 p' (B.length - c0)
      (by omega)
      (le_refl _)
      (by omega)
      (by omega)
      (by omega)
      (by
        intro i hi
        rw [cacheInsert_other (show 1 + i ≠ 0 by omega),
          cacheInsert_other (show 1 + i ≠ 0 by omega)]
        rfl)
      cacheInsert_same
  refine ⟨cache', if 0 < B.length - c0 then p'.setRightSibling 1 else p',
    ?_, ?_, ?_, ?_, ?_, ?_, hchain, ?_, ?_⟩
  · unfold Page.newLeaf
    simp only []
    rw [if_neg (show ¬ (65536 ≤ 0 + 1) by omega)]
    rw [show (Page.new DATA_PAGE 0).pageId = 0 by simp]
    rw [cacheInsert_same]
    simp only []
    rw [hov]
    simp only []
    rw [show Payload.len ⟨B, c0, pt⟩ = B.length - c0 from rfl]
    rw [Nat.zero_add, hloop]
  · exact hprevE
  · by_cases hrpos : 0 < B.length - c0
    · rw [if_pos hrpos, setRS_freeStart, hfs']
    · rw [if_neg hrpos]
      exact hfs'
  · by_cases hrpos : 0 < B.length - c0
    · rw [if_pos hrpos, setRS_freeEnd, hfe']
    · rw [if_neg hrpos]
      exact hfe'
  · by_cases hrpos : 0 < B.length - c0
    · rw [if_pos hrpos, setRS_pageId, hid']
    · rw [if_neg hrpos]
      exact hid'
  · by_cases hrpos : 0 < B.length - c0
    · rw [if_pos hrpos, if_pos hrpos, setRS_rightSibling]
    · rw [if_neg hrpos, if_neg hrpos]
      exact hrs'
  · intro x hx
    have hx0 : x ≠ 0 := by omega
    rw [hframe x hx0 (Or.inr hx)]
    rw [cacheInsert_other hx0, cacheInsert_other hx0]
    rfl
  · -- reading slot 0 of the head page back returns the full payload
    have hh18 : ∀ o, 12 ≤ o →
        readLe2 (if 0 < B.length - c0 then p'.setRightSibling 1 else p').buffer o =
          readLe2 p'.buffer o := by
      intro o ho
      by_cases hrpos : 0 < B.length - c0
      · rw [if_pos hrpos, setRS_readLe2 ho]
      · rw [if_neg hrpos]
    have hhbytes : ∀ o n, 12 ≤ o →
        readBytes (if 0 < B.length - c0 then p'.setRightSibling 1 else p').buffer o n =
          readBytes p'.buffer o n := by
      intro o n ho
      by_cases hrpos : 0 < B.length - c0
      · rw [if_pos hrpos, setRS_readBytes ho]
      · rw [if_neg hrpos]
    unfold Page.getKeyPayload
    simp only []
    rw [show TOTAL_HEADER_SIZE + 0 * 2 = 18 by simp]
    rw [hh18 18 (by omega), h18']
    rw [hh18 nfe (by omega), hlen']
    rw [show nfe + SIZE_PAGE_ID + SIZE_FLAGS = nfe + 3 by simp]
    rw [hh18 (nfe + 3) (by omega), hklen']
    rw [if_neg (show ¬ (PAGE_SIZE < 18 + SIZE_OF_SLOT_TABLE_ITEM) by simp)]
    rw [if_neg (show ¬ (PAGE_SIZE < nfe + SIZE_OF_SLOT_TABLE_ITEM) by simp; omega)]
    rw [if_neg (show ¬ (PAGE_SIZE < nfe + 3) by simp; omega)]
    rw [if_neg (show ¬ (PAGE_SIZE < nfe + 3 + SIZE_OF_SLOT_TABLE_ITEM) by simp; omega)]
    rw [if_neg (show ¬ (PAGE_SIZE < K.length +
      (TOTAL_HEADER_SIZE + 3 * SIZE_PAGE_ID + 2 * SIZE_PAGE_TYPE)) by simp; omega)]
    rw [show PAGE_SIZE - (K.length + TOTAL_HEADER_SIZE + 3 * SIZE_PAGE_ID +
      2 * SIZE_PAGE_TYPE) = 4070 - K.length by simp]
    rw [← hc0]
    rw [show nfe + 3 + SIZE_PAGE_ID + SIZE_FLAGS = nfe + 6 by simp]
    rw [if_neg (show ¬ (PAGE_SIZE < nfe + 6 + K.length + c0) by simp; omega)]
    rw [hhbytes (nfe + 6 + K.length) c0 (by omega), hbytes']
    by_cases hrpos : 0 < B.length - c0
    · rw [show (if 0 < B.length - c0 then p'.setRightSibling 1 else p').rightSibling = 1 by
        rw [if_pos hrpos, setRS_rightSibling]]
      rw [if_neg (show ¬ ((1 : Nat) = 0) by omega)]
      have hLpos : 0 < (segs (B.drop c0)).length :=
        segs_pos_length (by simp; omega)
      have hchainIs : IsChain cache' 1 (segs (B.drop c0)) := by
        have := isChain_of_run (segs (B.drop c0)) 1 cache' (le_refl 1) (by
          intro i hi
          obtain ⟨pg, hpg, _, _, _, hrs, hgod⟩ := hchain i hi
          exact ⟨pg, hpg, hgod, hrs⟩)
        rw [if_neg (by omega)] at this
        exact this
      rw [walkChain_isChain (segs (B.drop c0)) cache' 1 (B.take c0) B.length
        hchainIs (by omega)]
      rw [segs_flatten (B.drop c0).length (B.drop c0) (le_refl _)]
      rw [List.take_append_drop]
    · rw [show (if 0 < B.length - c0 then p'.setRightSibling 1 else p').rightSibling = 0 by
        rw [if_neg hrpos]; exact hrs']
      rw [if_pos rfl]
      rw [show c0 = B.length by omega, List.take_length]

/-! ## Claim C1 -/

/-- Claim C1 (amended): for every `(key, payload)` pair, reading slot 0 of
the page returned by `new_leaf(key, payload)` through `get_key_payload`
yields exactly the original payload bytes — including payloads spanning an
overflow chain — provided the key fits the head page
(`|key| ≤ PAGE_SIZE − TOTAL_HEADER_SIZE − 8 = 4070`, which covers every
key admitted by the claim's own bound) AND the whole record fits a `u16`
(`6 + |key| + |payload| ≤ 65535`).  The claim's "payloads of any size" is
false: larger payloads make `slot_size`'s `u16` conversion panic, see
`c1_counterexample`. -/
theorem c1_theorem (K B : List Nat) (kt pt : Nat)
    (hk : K.length ≤ 4070) (hn : 6 + K.length + B.length ≤ 65535) :
    allocateThenRead ⟨K, 0, kt⟩ ⟨B, 0, pt⟩ = .ok B := by
  obtain ⟨cache', hp, heq, hhp, -, -, -, -, -, -, hread⟩ :=
    newLeaf_run K B kt pt hk hn rfl rfl
  unfold allocateThenRead
  rw [heq]
  simp only []
  rw [hhp]
  simp only []
  rw [show Payload.len ⟨B, 0, pt⟩ = B.length by simp [Payload.len]]
  exact hread

/-- Claim C1 counterexample: the key `[107]` satisfies the claim's size
bound (`|key| + 1 ≤ PAGE_SIZE − 20 − 6 − 2`), yet with a 65536-byte
payload the allocation panics (`slot_size`'s `u16` conversion overflows
inside `add_key_data`), so the spec's roundtrip equality fails for
payloads of that size. -/
theorem c1_counterexample :
    allocateThenRead ⟨[107], 0, 1⟩ ⟨List.replicate 65536 0, 0, 0⟩ =
      .error .panic ∧
    ([107] : List Nat).length + 1 ≤ PAGE_SIZE - 20 - 6 - 2 := by
  have hgen : ∀ BB : List Nat, BB.length = 65536 →
      allocateThenRead ⟨[107], 0, 1⟩ ⟨BB, 0, 0⟩ = .error .panic := by
    intro BB hBB
    have herr : Page.newLeaf emptyCache 0 ⟨[107], 0, 1⟩ ⟨BB, 0, 0⟩ =
        .error .panic := by
      unfold Page.newLeaf
      simp only []
      rw [if_neg (show ¬ (65536 ≤ 0 + 1) by omega)]
      rw [show (Page.new DATA_PAGE 0).pageId = 0 by simp]
      rw [cacheInsert_same]
      simp only []
      rw [addKeyData_err_b ⟨[107], 0, 1⟩ ⟨BB, 0, 0⟩
        (by simp only [new_freeStart, new_freeEnd]; omega)
        (by simp only [new_freeStart, new_freeEnd, SIZE_OFFSET, SIZE_FLAGS,
          List.length_cons, List.length_nil]; omega)
        (by simp only [Payload.len, SIZE_OFFSET, SIZE_FLAGS,
          List.length_cons, List.length_nil]; omega)]
    unfold allocateThenRead
    rw [herr]
  constructor
  · exact hgen (List.replicate 65536 0) (by rw [List.length_replicate])
  · simp only [List.length_cons, List.length_nil, PAGE_SIZE]
    omega

/-- Witness for C1: roundtrip at a small concrete input. -/
theorem c1_witness :
    allocateThenRead ⟨[107], 0, 1⟩ ⟨[1, 2, 3], 0, 0⟩ = .ok [1, 2, 3] :=
  c1_theorem [107] [1, 2, 3] 1 0
    (by simp only [List.length_cons, List.length_nil]; omega)
    (by simp only [List.length_cons, List.length_nil]; omega)

/-! ## Claim C7 -/

/-- Shape of the per-overflow-page segments of the residual left after the
head page of an 8192-byte payload with a 3-byte key: two segments of 4074
and 51 bytes. -/
theorem segs_8192 (B : List Nat) (hB : B.length = 8192) :
    segs (B.drop 4067) =
      [(B.drop 4067).take 4074, ((B.drop 4067).drop 4074).take 51] ∧
    (segs (B.drop 4067)).length = 2 ∧
    4094 - ((segs (B.drop 4067)).getD 0 []).length = 20 ∧
    4094 - ((segs (B.drop 4067)).getD 1 []).length = 4043 := by
  have hRlen : (B.drop 4067).length = 4125 := by
    simp only [List.length_drop]
    omega
  have hR2len : ((B.drop 4067).drop 4074).length = 51 := by
    simp only [List.length_drop]
    omega
  have h1 : segs (B.drop 4067) =
      (B.drop 4067).take 4074 :: segs ((B.drop 4067).drop 4074) := by
    have h0 := segs_cons (show 0 < (B.drop 4067).length by rw [hRlen]; norm_num)
    rw [hRlen] at h0
    rw [show (min 4125 4074 : Nat) = 4074 by omega] at h0
    exact h0
  have h2 : segs ((B.drop 4067).drop 4074) =
      [((B.drop 4067).drop 4074).take 51] := by
    have h2a : (((B.drop 4067).drop 4074).drop 51).length = 0 := by
      simp only [List.length_drop]
      omega
    have h0 := segs_cons
      (show 0 < ((B.drop 4067).drop 4074).length by rw [hR2len]; norm_num)
    rw [hR2len] at h0
    rw [show (min 51 4074 : Nat) = 51 by omega] at h0
    rw [segs_len_zero h2a] at h0
    exact h0
  have hsegs2 : segs (B.drop 4067) =
      [(B.drop 4067).take 4074, ((B.drop 4067).drop 4074).take 51] := by
    rw [h1, h2]
  have hlen0 : ((B.drop 4067).take 4074).length = 4074 := by
    simp only [List.length_take]
    omega
  have hlen1 : (((B.drop 4067).drop 4074).take 51).length = 51 := by
    simp only [List.length_take, List.length_drop]
    omega
  refine ⟨hsegs2, by rw [hsegs2]; rfl, ?_, ?_⟩
  · rw [hsegs2]
    simp only [List.getD_cons_zero]
    rw [hlen0]
  · rw [hsegs2]
    simp only [List.getD_cons_succ, List.getD_cons_zero]
    rw [hlen1]

theorem newLeaf_run_8192 (B : List Nat) (pt : Nat) (hB : B.length = 8192) :
    ∃ (cache' : Cache) (hp p1 p2 : Page),
      Page.newLeaf emptyCache 0 ⟨[102, 111, 111], 0, 1⟩ ⟨B, 0, pt⟩ =
        .ok (cache', 3, 0) ∧
      cache' 0 = some hp ∧ hp.pageId = 0 ∧
        hp.freeStart = 20 ∧ hp.freeEnd = 20 ∧ hp.rightSibling = 1 ∧
      cache' 1 = some p1 ∧ p1.pageId = 1 ∧
        p1.freeStart = 20 ∧ p1.freeEnd = 20 ∧ p1.rightSibling = 2 ∧
      cache' 2 = some p2 ∧ p2.pageId = 2 ∧
        p2.freeStart = 20 ∧ p2.freeEnd = 4043 ∧ p2.rightSibling = 0 ∧
      (∀ x, 3 ≤ x → cache' x = none) ∧
      hp.getKeyPayload cache' B.length 0 = .ok B := by
  obtain ⟨cache', hp, heq, hhp, hfs, hfe, hpid, hrs, hchain, hnone, hread⟩ :=
    @newLeaf_run [102, 111, 111] B 1 pt 4067 20
      (by simp only [List.length_cons, List.length_nil]; omega)
      (by simp only [List.length_cons, List.length_nil]; omega)
      (by simp only [List.length_cons, List.length_nil]; omega)
      (by simp only [List.length_cons, List.length_nil])
  obtain ⟨hsegs2, hL2, hgetd0, hgetd1⟩ := segs_8192 B hB
  obtain ⟨p1, hp1, hfs1, hfe1, hpid1, hrs1, -⟩ :=
    hchain 0 (by rw [hL2]; norm_num)
  obtain ⟨p2, hp2, hfs2, hfe2, hpid2, hrs2, -⟩ :=
    hchain 1 (by rw [hL2]; norm_num)
  rw [hL2] at heq
  refine ⟨cache', hp, p1, p2, heq, hhp, hpid, hfs, hfe,
    hrs.trans (if_pos (by omega)),
    hp1, hpid1, hfs1, hfe1.trans hgetd0, hrs1.trans (by rw [hL2]; simp),
    hp2, hpid2, hfs2, hfe2.trans hgetd1, hrs2.trans (by rw [hL2]; simp),
    ?_, hread⟩
  intro x hx
  exact hnone x (by rw [hL2]; omega)


/-- Claim C7 (corrected): `new_leaf` with key "foo" and an 8192-byte
(`PAGE_SIZE × 2`) payload produces exactly 3 pages (head `0`, overflow
`1` and `2`, next id counter `3`, nothing else cached) and the payload
reads back exactly; but only the head and the first overflow page end
with `free_start = free_end` — the last chain page keeps a free gap
(`free_start = 20`, `free_end = 4043`), refuting the claim's "every page
of the chain" part (see `c7_counterexample`). -/
theorem c7_theorem (B : List Nat) (pt : Nat) (hB : B.length = 8192) :
    ∃ (cache' : Cache) (hp p1 p2 : Page),
      Page.newLeaf emptyCache 0 ⟨[102, 111, 111], 0, 1⟩ ⟨B, 0, pt⟩ =
        .ok (cache', 3, 0) ∧
      cache' 0 = some hp ∧ hp.pageId = 0 ∧
        hp.freeStart = 20 ∧ hp.freeEnd = 20 ∧ hp.rightSibling = 1 ∧
      cache' 1 = some p1 ∧ p1.pageId = 1 ∧
        p1.freeStart = 20 ∧ p1.freeEnd = 20 ∧ p1.rightSibling = 2 ∧
      cache' 2 = some p2 ∧ p2.pageId = 2 ∧
        p2.freeStart = 20 ∧ p2.freeEnd = 4043 ∧ p2.rightSibling = 0 ∧
      (∀ x, 3 ≤ x → cache' x = none) ∧
      hp.getKeyPayload cache' B.length 0 = .ok B :=
  newLeaf_run_8192 B pt hB

/-- Claim C7 counterexample: with key "foo" and the concrete 8192-byte
payload of all zeros, the last page of the overflow chain (page id 2, the
one whose `right_sibling` is 0) has `free_start = 20 ≠ free_end = 4043`,
refuting "every page of that chain ends with free_start == free_end". -/
theorem c7_counterexample :
    (Page.newLeaf emptyCache 0 ⟨[102, 111, 111], 0, 1⟩
        ⟨List.replicate 8192 0, 0, 0⟩).map
      (fun r => (r.2.1, (r.1 2).map
        (fun p => (p.rightSibling, decide (p.freeStart = p.freeEnd))))) =
      .ok (3, some (0, false)) := by
  obtain ⟨cache', hp, p1, p2, heq, hhp, hpid0, hfs0, hfe0, hrs0,
      hp1, hpid1, hfs1, hfe1, hrs1, hp2, hpid2, hfs2, hfe2, hrs2, hnone, hread⟩ :=
    newLeaf_run_8192 (List.replicate 8192 0) 0 (by rw [List.length_replicate])
  rw [heq]
  simp only [Except.map]
  rw [hp2]
  simp only [Option.map]
  rw [hrs2]
  rw [show decide (p2.freeStart = p2.freeEnd) = false by
    rw [hfs2, hfe2]; decide]

/-- Witness for C7 at the concrete all-zero 8192-byte payload. -/
theorem c7_witness :
    ∃ (cache' : Cache) (hp p1 p2 : Page),
      Page.newLeaf emptyCache 0 ⟨[102, 111, 111], 0, 1⟩
          ⟨List.replicate 8192 0, 0, 0⟩ =
        .ok (cache', 3, 0) ∧
      cache' 0 = some hp ∧ hp.pageId = 0 ∧
        hp.freeStart = 20 ∧ hp.freeEnd = 20 ∧ hp.rightSibling = 1 ∧
      cache' 1 = some p1 ∧ p1.pageId = 1 ∧
        p1.freeStart = 20 ∧ p1.freeEnd = 20 ∧ p1.rightSibling = 2 ∧
      cache' 2 = some p2 ∧ p2.pageId = 2 ∧
        p2.freeStart = 20 ∧ p2.freeEnd = 4043 ∧ p2.rightSibling = 0 ∧
      (∀ x, 3 ≤ x → cache' x = none) ∧
      hp.getKeyPayload cache' (List.replicate 8192 (0 : Nat)).length 0 =
        .ok (List.replicate 8192 0) :=
  c7_theorem (List.replicate 8192 0) 0 (by rw [List.length_replicate])

/-! ## Claim C8 -/

/-- Claim C8 (corrected): the chain walk of `get_key_payload` never
compares the accumulated byte count with the record's stored
`payload_len` and the source has no `CorruptChain` error at all (its
error type only has `OutOfRange`): for every terminated overflow chain
the walk accumulates the overflow data of every page and stops exactly
when `right_sibling` is 0, returning `Ok` with everything accumulated —
even when that total disagrees with the stored `payload_len` (see
`c8_counterexample`). -/
theorem c8_theorem (cache : Cache) (id : Nat) (ds : List (List Nat))
    (acc : List Nat) (fuel : Nat) (h : IsChain cache id ds)
    (hf : ds.length ≤ fuel) :
    walkChain cache fuel id acc = .ok (acc ++ ds.flatten) :=
  walkChain_isChain ds cache id acc fuel h hf

/-- Claim C8 counterexample: a head record whose stored `payload_len` is 3
(key `[107]`, in-page payload `[1, 2, 3]`) wired by `set_right_sibling` to
an overflow page holding `[9, 9]`.  `get_key_payload` returns
`Ok [1, 2, 3, 9, 9]` — 5 bytes, disagreeing with the stored length 3 read
back from the slot — instead of stopping at `payload_len` or returning
the spec's `CorruptChain`. -/
theorem c8_counterexample :
    ((Page.new DATA_PAGE 0).addKeyData ⟨[107], 0, 1⟩ ⟨[1, 2, 3], 0, 0⟩).map
      (fun r =>
        ((Page.new DATA_PAGE 1).addOverflowData ⟨[9, 9], 0, 0⟩).map
          (fun s =>
            ((r.1.setRightSibling 1).getKeyPayload
                (cacheInsert (cacheInsert emptyCache 0 (r.1.setRightSibling 1))
                  1 s.1) 5 0,
              readLe2 (r.1.setRightSibling 1).buffer
                (readLe2 (r.1.setRightSibling 1).buffer 18)))) =
      .ok (.ok (.ok [1, 2, 3, 9, 9], 3)) ∧
    ([1, 2, 3, 9, 9] : List Nat).length ≠ 3 := by
  constructor
  · rfl
  · simp

/-- Witness for C8: the walk over a concrete empty chain with a non-empty
accumulator. -/
theorem c8_witness :
    walkChain emptyCache 0 0 [1, 2, 3] =
      .ok ([1, 2, 3] ++ ([] : List (List Nat)).flatten) :=
  c8_theorem emptyCache 0 [] [1, 2, 3] 0 IsChain.nil (by simp)

end Teleport
